import Mathlib

/-!
Verification development for the Digitalyz data-ingestion and validation tool.

The repository's core is a set of TypeScript functions over loosely typed
records: a validation rule catalog (`src/components/data-upload.tsx`), a
natural-language condition parser and executor (`src/unnamed/part_001`), and a
natural-language rule converter (`src/components/ai-rule-converter.tsx`).
This file gives a shallow embedding of those functions and proves properties
about them.

Conventions of the embedding:
* A JavaScript value is modelled by `JsValue`; `undefined` and `null` are
  distinct constructors, numbers are rationals (the source only ever produces
  decimal literals), and `NaN` is modelled by `Option` results of the numeric
  coercions rather than by a value.
* A record (a parsed CSV/XLSX row) is an association list from field name to
  value, in key insertion order.
* `JSON.parse` is modelled by `jsonParse`, a recursive-descent parser for the
  JSON fragment the tool manipulates; failure (`throw`) is `none`.
-/

namespace Digitalyz

/-- Model of a JavaScript value as manipulated by the source. -/
inductive JsValue where
  | num (q : ℚ)
  | str (s : String)
  | bool (b : Bool)
  | list (xs : List JsValue)
  | obj (fields : List (String × JsValue))
  | null
  | undefined
deriving Repr

mutual

/-- Structural decidable equality for `JsValue` (JS `===` on primitives and on
the structural reading of arrays/objects used by this development). -/
def JsValue.beq : JsValue → JsValue → Bool
  | .num a, .num b => a == b
  | .str a, .str b => a == b
  | .bool a, .bool b => a == b
  | .list a, .list b => JsValue.beqList a b
  | .obj a, .obj b => JsValue.beqFields a b
  | .null, .null => true
  | .undefined, .undefined => true
  | _, _ => false

/-- Elementwise equality of value lists. -/
def JsValue.beqList : List JsValue → List JsValue → Bool
  | [], [] => true
  | a :: as, b :: bs => JsValue.beq a b && JsValue.beqList as bs
  | _, _ => false

/-- Elementwise equality of field lists. -/
def JsValue.beqFields : List (String × JsValue) → List (String × JsValue) → Bool
  | [], [] => true
  | (ka, va) :: as, (kb, vb) :: bs => ka == kb && JsValue.beq va vb && JsValue.beqFields as bs
  | _, _ => false

end

mutual

theorem JsValue.beq_refl : ∀ (v : JsValue), JsValue.beq v v = true
  | .num a => by simp [JsValue.beq]
  | .str a => by simp [JsValue.beq]
  | .bool a => by simp [JsValue.beq]
  | .list xs => by simp [JsValue.beq, JsValue.beqList_refl xs]
  | .obj fs => by simp [JsValue.beq, JsValue.beqFields_refl fs]
  | .null => rfl
  | .undefined => rfl

theorem JsValue.beqList_refl : ∀ (xs : List JsValue), JsValue.beqList xs xs = true
  | [] => rfl
  | a :: as => by simp [JsValue.beqList, JsValue.beq_refl a, JsValue.beqList_refl as]

theorem JsValue.beqFields_refl : ∀ (fs : List (String × JsValue)), JsValue.beqFields fs fs = true
  | [] => rfl
  | (k, v) :: fs => by simp [JsValue.beqFields, JsValue.beq_refl v, JsValue.beqFields_refl fs]

end

mutual

theorem JsValue.eq_of_beq : ∀ {a b : JsValue}, JsValue.beq a b = true → a = b
  | .num a, .num b, h => by simpa [JsValue.beq] using h
  | .num _, .str _, h => by simp [JsValue.beq] at h
  | .num _, .bool _, h => by simp [JsValue.beq] at h
  | .num _, .list _, h => by simp [JsValue.beq] at h
  | .num _, .obj _, h => by simp [JsValue.beq] at h
  | .num _, .null, h => by simp [JsValue.beq] at h
  | .num _, .undefined, h => by simp [JsValue.beq] at h
  | .str _, .num _, h => by simp [JsValue.beq] at h
  | .str a, .str b, h => by simpa [JsValue.beq] using h
  | .str _, .bool _, h => by simp [JsValue.beq] at h
  | .str _, .list _, h => by simp [JsValue.beq] at h
  | .str _, .obj _, h => by simp [JsValue.beq] at h
  | .str _, .null, h => by simp [JsValue.beq] at h
  | .str _, .undefined, h => by simp [JsValue.beq] at h
  | .bool _, .num _, h => by simp [JsValue.beq] at h
  | .bool _, .str _, h => by simp [JsValue.beq] at h
  | .bool a, .bool b, h => by simpa [JsValue.beq] using h
  | .bool _, .list _, h => by simp [JsValue.beq] at h
  | .bool _, .obj _, h => by simp [JsValue.beq] at h
  | .bool _, .null, h => by simp [JsValue.beq] at h
  | .bool _, .undefined, h => by simp [JsValue.beq] at h
  | .list _, .num _, h => by simp [JsValue.beq] at h
  | .list _, .str _, h => by simp [JsValue.beq] at h
  | .list _, .bool _, h => by simp [JsValue.beq] at h
  | .list a, .list b, h => by
      have := JsValue.eqList_of_beq (a := a) (b := b) (by simpa [JsValue.beq] using h)
      simp [this]
  | .list _, .obj _, h => by simp [JsValue.beq] at h
  | .list _, .null, h => by simp [JsValue.beq] at h
  | .list _, .undefined, h => by simp [JsValue.beq] at h
  | .obj _, .num _, h => by simp [JsValue.beq] at h
  | .obj _, .str _, h => by simp [JsValue.beq] at h
  | .obj _, .bool _, h => by simp [JsValue.beq] at h
  | .obj _, .list _, h => by simp [JsValue.beq] at h
  | .obj a, .obj b, h => by
      have := JsValue.eqFields_of_beq (a := a) (b := b) (by simpa [JsValue.beq] using h)
      simp [this]
  | .obj _, .null, h => by simp [JsValue.beq] at h
  | .obj _, .undefined, h => by simp [JsValue.beq] at h
  | .null, .num _, h => by simp [JsValue.beq] at h
  | .null, .str _, h => by simp [JsValue.beq] at h
  | .null, .bool _, h => by simp [JsValue.beq] at h
  | .null, .list _, h => by simp [JsValue.beq] at h
  | .null, .obj _, h => by simp [JsValue.beq] at h
  | .null, .null, _ => rfl
  | .null, .undefined, h => by simp [JsValue.beq] at h
  | .undefined, .num _, h => by simp [JsValue.beq] at h
  | .undefined, .str _, h => by simp [JsValue.beq] at h
  | .undefined, .bool _, h => by simp [JsValue.beq] at h
  | .undefined, .list _, h => by simp [JsValue.beq] at h
  | .undefined, .obj _, h => by simp [JsValue.beq] at h
  | .undefined, .null, h => by simp [JsValue.beq] at h
  | .undefined, .undefined, _ => rfl

theorem JsValue.eqList_of_beq : ∀ {a b : List JsValue}, JsValue.beqList a b = true → a = b
  | [], [], _ => rfl
  | [], _ :: _, h => by simp [JsValue.beqList] at h
  | _ :: _, [], h => by simp [JsValue.beqList] at h
  | a :: as, b :: bs, h => by
      simp only [JsValue.beqList, Bool.and_eq_true] at h
      have h1 := JsValue.eq_of_beq h.1
      have h2 := JsValue.eqList_of_beq h.2
      simp [h1, h2]

theorem JsValue.eqFields_of_beq :
    ∀ {a b : List (String × JsValue)}, JsValue.beqFields a b = true → a = b
  | [], [], _ => rfl
  | [], _ :: _, h => by simp [JsValue.beqFields] at h
  | _ :: _, [], h => by simp [JsValue.beqFields] at h
  | (ka, va) :: as, (kb, vb) :: bs, h => by
      simp only [JsValue.beqFields, Bool.and_eq_true] at h
      have h1 : ka = kb := by simpa using h.1.1
      have h2 := JsValue.eq_of_beq h.1.2
      have h3 := JsValue.eqFields_of_beq h.2
      simp [h1, h2, h3]

end

instance : DecidableEq JsValue := fun a b =>
  if h : JsValue.beq a b = true then
    .isTrue (JsValue.eq_of_beq h)
  else
    .isFalse (fun hab => h (hab ▸ JsValue.beq_refl a))

/-- A parsed row: field name to value, in insertion order (a JS object). -/
abbrev JsRecord := List (String × JsValue)

/-- JS property read `obj[key]`: the value stored under the first matching
key, `undefined` when the key is absent. -/
def getProp (r : JsRecord) (key : String) : JsValue :=
  match r.lookup key with
  | some v => v
  | none => .undefined

/-- JS truthiness.  `NaN` cannot occur as a stored value in this model, so
numbers are falsy exactly at `0`. -/
def jsTruthy : JsValue → Bool
  | .num q => q != 0
  | .str s => s != ""
  | .bool b => b
  | .list _ => true
  | .obj _ => true
  | .null => false
  | .undefined => false

/-- Smallest `k ≤ 30` such that `q * 10^k` is an integer, if any.
All values produced by the source are decimal literals, so this succeeds. -/
def ratDecExponent (q : ℚ) : Option ℕ :=
  (List.range 31).find? (fun k => (q * (10 : ℚ) ^ k).den == 1)

/-- Decimal rendering of a nonnegative rational, as JS `String(number)` renders
finite decimals: no trailing zeros, no decimal point for integers. -/
def ratToStringNonneg (q : ℚ) : String :=
  if q.den = 1 then toString q.num
  else
    match ratDecExponent q with
    | some k =>
        let n : ℕ := (q * (10 : ℚ) ^ k).num.toNat
        let ip : ℕ := n / 10 ^ k
        let fp : ℕ := n % 10 ^ k
        let fpStr := toString fp
        let fpPad := String.mk (List.replicate (k - fpStr.length) '0') ++ fpStr
        toString ip ++ "." ++ fpPad
    | none => toString q.num ++ "/" ++ toString q.den

/-- Decimal rendering of a rational. -/
def ratToString (q : ℚ) : String :=
  if q < 0 then "-" ++ ratToStringNonneg (-q) else ratToStringNonneg q

/-- JS `String(value)` for the values this model stores.  Arrays render as the
comma-join of their elements, objects as `"[object Object]"`. -/
def jsToString : JsValue → String
  | .num q => ratToString q
  | .str s => s
  | .bool b => if b then "true" else "false"
  | .null => "null"
  | .undefined => "undefined"
  | .obj _ => "[object Object]"
  | .list xs => String.intercalate "," (xs.map (fun x =>
      match x with
      | .num q => ratToString q
      | .str s => s
      | .bool b => if b then "true" else "false"
      | .null => ""
      | .undefined => ""
      | .obj _ => "[object Object]"
      | .list _ => ""))

/-- JS whitespace for trimming in `Number(...)` / `parseInt(...)`. -/
def isJsWs (c : Char) : Bool :=
  c == ' ' || c == '\t' || c == '\n' || c == '\r'

/-- Numeric value of a digit character. -/
def digitVal (c : Char) : ℕ := c.toNat - '0'.toNat

/-- Natural number denoted by a digit list (most significant first). -/
def digitsToNat (ds : List Char) : ℕ :=
  ds.foldl (fun acc c => acc * 10 + digitVal c) 0

/-- Parse `digits [. digits]` into a rational; `none` if the shape is off.
This is the shape produced by the source's `\d+(?:\.\d+)?` captures. -/
def decTokToRat (s : String) : Option ℚ :=
  match s.toList.span Char.isDigit with
  | (intDs, rest) =>
    if intDs = [] then none
    else
      match rest with
      | [] => some (digitsToNat intDs : ℚ)
      | '.' :: fracDs =>
          if fracDs ≠ [] ∧ fracDs.all Char.isDigit then
            some ((digitsToNat intDs : ℚ) +
              (digitsToNat fracDs : ℚ) / (10 : ℚ) ^ fracDs.length)
          else none
      | _ => none

/-- JS `Number(string)` on the decimal fragment the source feeds it:
whitespace-trimmed, empty string is `0`, optional sign, `digits[.digits]` or
`.digits`; anything else is `NaN` (`none`). -/
def strToNumber (s : String) : Option ℚ :=
  let cs := (s.toList.dropWhile isJsWs).reverse.dropWhile isJsWs |>.reverse
  match cs with
  | [] => some 0
  | _ =>
    let (sign, body) :=
      match cs with
      | '-' :: rest => ((-1 : ℚ), rest)
      | '+' :: rest => ((1 : ℚ), rest)
      | _ => ((1 : ℚ), cs)
    let parseBody : List Char → Option ℚ := fun b =>
      match b.span Char.isDigit with
      | (intDs, rest) =>
        match rest with
        | [] => if intDs = [] then none else some (digitsToNat intDs : ℚ)
        | '.' :: fracDs =>
            if fracDs.all Char.isDigit ∧ (intDs ≠ [] ∨ fracDs ≠ []) then
              some ((digitsToNat intDs : ℚ) +
                (digitsToNat fracDs : ℚ) / (10 : ℚ) ^ fracDs.length)
            else none
        | _ => none
    (parseBody body).map (sign * ·)

/-- JS `Number(value)`; `none` models `NaN`. -/
def jsNumber : JsValue → Option ℚ
  | .num q => some q
  | .str s => strToNumber s
  | .bool b => some (if b then 1 else 0)
  | .null => some 0
  | .undefined => none
  | .obj _ => none
  | .list xs =>
      match xs with
      | [] => some 0
      | [x] =>
          match x with
          | .num q => some q
          | .str s => strToNumber s
          | .null => some 0
          | _ => none
      | _ => none

/-- JS `Number.parseInt(value)` (radix 10): stringify, skip leading
whitespace, optional sign, then the leading digit run; `NaN` (`none`) when no
digit is found. -/
def parseIntJS (v : JsValue) : Option ℤ :=
  let cs := (jsToString v).toList.dropWhile isJsWs
  let (sign, body) :=
    match cs with
    | '-' :: rest => ((-1 : ℤ), rest)
    | '+' :: rest => ((1 : ℤ), rest)
    | _ => ((1 : ℤ), cs)
  match body.span Char.isDigit with
  | ([], _) => none
  | (ds, _) => some (sign * (digitsToNat ds : ℤ))

/-- `s.startsWith(pre)` (structural, over the character list). -/
def jsStartsWith (s pre : String) : Bool :=
  pre.toList.isPrefixOf s.toList

/-- `s.endsWith(suf)` (structural, over the character list). -/
def jsEndsWith (s suf : String) : Bool :=
  suf.toList.isSuffixOf s.toList

/-- JS `String.prototype.trim` (structural). -/
def jsTrim (s : String) : String :=
  String.mk ((s.toList.dropWhile isJsWs).reverse.dropWhile isJsWs |>.reverse)

/-- `s.toLowerCase()` (structural; the source only lowercases ASCII). -/
def jsToLower (s : String) : String :=
  String.mk (s.toList.map Char.toLower)

/-- `s.split(sep)` for a one-character separator (structural): JS semantics,
so an empty string yields `[""]` and adjacent separators yield `""` parts. -/
def splitOnCharAux (sep : Char) : List Char → List Char → List String
  | [], acc => [String.mk acc.reverse]
  | c :: cs, acc =>
      if c = sep then String.mk acc.reverse :: splitOnCharAux sep cs []
      else splitOnCharAux sep cs (c :: acc)

/-- `s.split(sep)` for a one-character separator. -/
def splitOnChar (sep : Char) (s : String) : List String :=
  splitOnCharAux sep s.toList []

/-- Whether `pat` occurs in `s` starting at index `i` (character units). -/
def listMatchesAt (s pat : List Char) (i : ℕ) : Bool :=
  pat.isPrefixOf (s.drop i)

/-- JS `String.prototype.includes` for the strings of this development. -/
def containsSub (s pat : String) : Bool :=
  (List.range (s.toList.length + 1)).any (fun i => listMatchesAt s.toList pat.toList i)

/-- `[...new Set(xs)]`: drop later duplicates, keeping first-insertion order. -/
def dedupFirst {α} [DecidableEq α] (l : List α) : List α :=
  l.foldl (fun acc x => if acc.contains x then acc else acc ++ [x]) []

theorem mem_dedupFirst_fold {α} [DecidableEq α] (a : α) :
    ∀ (l acc : List α),
      (a ∈ l.foldl (fun acc x => if acc.contains x then acc else acc ++ [x]) acc) ↔
        a ∈ acc ∨ a ∈ l
  | [], acc => by simp
  | x :: xs, acc => by
      simp only [List.foldl_cons]
      rw [mem_dedupFirst_fold a xs]
      by_cases h : acc.contains x = true
      · have hx : x ∈ acc := by simpa using h
        rw [if_pos h]
        simp only [List.mem_cons]
        constructor
        · rintro (ha | ha)
          · exact Or.inl ha
          · exact Or.inr (Or.inr ha)
        · rintro (ha | ha | ha)
          · exact Or.inl ha
          · exact Or.inl (ha ▸ hx)
          · exact Or.inr ha
      · rw [if_neg h]
        simp only [List.mem_append, List.mem_singleton, List.mem_cons]
        tauto

theorem mem_dedupFirst {α} [DecidableEq α] (a : α) (l : List α) :
    a ∈ dedupFirst l ↔ a ∈ l := by
  unfold dedupFirst
  rw [mem_dedupFirst_fold]
  simp

/-! ### A model of `JSON.parse`

Recursive-descent parser for JSON (fuel-indexed); `none` models a thrown
`SyntaxError`.  Covers the full JSON grammar except `\uXXXX` surrogate
pairing (a lone escape becomes the raw code point). -/

/-- Skip JSON insignificant whitespace. -/
def jsonSkipWs (cs : List Char) : List Char :=
  cs.dropWhile (fun c => c == ' ' || c == '\t' || c == '\n' || c == '\r')

/-- Hex digit value, if any. -/
def hexVal (c : Char) : Option ℕ :=
  if '0' ≤ c ∧ c ≤ '9' then some (c.toNat - '0'.toNat)
  else if 'a' ≤ c ∧ c ≤ 'f' then some (c.toNat - 'a'.toNat + 10)
  else if 'A' ≤ c ∧ c ≤ 'F' then some (c.toNat - 'A'.toNat + 10)
  else none

/-- Single-character JSON string escapes. -/
def jsonEscChar (c : Char) : Option Char :=
  match c with
  | '"' => some '"'
  | '\\' => some '\\'
  | '/' => some '/'
  | 'b' => some (Char.ofNat 8)
  | 'f' => some (Char.ofNat 12)
  | 'n' => some '\n'
  | 'r' => some '\r'
  | 't' => some '\t'
  | _ => none

/-- Characters of a JSON string, starting after the opening quote; returns the
decoded characters and the input remaining after the closing quote. -/
def jsonStringChars (fuel : ℕ) (cs : List Char) : Option (List Char × List Char) :=
  match fuel with
  | 0 => none
  | fuel + 1 =>
    match cs with
    | [] => none
    | '"' :: rest => some ([], rest)
    | '\\' :: 'u' :: h1 :: h2 :: h3 :: h4 :: rest =>
        match hexVal h1, hexVal h2, hexVal h3, hexVal h4 with
        | some a, some b, some c, some d =>
            (jsonStringChars fuel rest).map
              (fun p => (Char.ofNat (((a * 16 + b) * 16 + c) * 16 + d) :: p.1, p.2))
        | _, _, _, _ => none
    | '\\' :: e :: rest =>
        match jsonEscChar e with
        | some c => (jsonStringChars fuel rest).map (fun p => (c :: p.1, p.2))
        | none => none
    | c :: rest =>
        if c.toNat < 32 then none
        else (jsonStringChars fuel rest).map (fun p => (c :: p.1, p.2))

/-- JSON number literal: `-? int frac? exp?` with the no-leading-zero rule. -/
def jsonNumber (cs : List Char) : Option (ℚ × List Char) :=
  let (sign, cs1) : ℚ × List Char :=
    match cs with
    | '-' :: rest => (-1, rest)
    | _ => (1, cs)
  let intPart : Option (ℕ × List Char) :=
    match cs1 with
    | '0' :: rest => some (0, rest)
    | c :: _ =>
        if c.isDigit ∧ c ≠ '0' then
          match cs1.span Char.isDigit with
          | (ds, rest) => some (digitsToNat ds, rest)
        else none
    | [] => none
  match intPart with
  | none => none
  | some (ip, cs2) =>
    let fracPart : Option (ℚ × List Char) :=
      match cs2 with
      | '.' :: rest =>
          match rest.span Char.isDigit with
          | ([], _) => none
          | (ds, rest2) => some ((digitsToNat ds : ℚ) / (10 : ℚ) ^ ds.length, rest2)
      | _ => some (0, cs2)
    match fracPart with
    | none => none
    | some (fp, cs3) =>
      let expPart : Option (ℚ × List Char) :=
        match cs3 with
        | 'e' :: rest | 'E' :: rest =>
            let (esign, rest1) : ℤ × List Char :=
              match rest with
              | '-' :: r => (-1, r)
              | '+' :: r => (1, r)
              | _ => (1, rest)
            match rest1.span Char.isDigit with
            | ([], _) => none
            | (ds, rest2) => some ((10 : ℚ) ^ (esign * (digitsToNat ds : ℤ)), rest2)
        | _ => some (1, cs3)
      match expPart with
      | none => none
      | some (ex, cs4) => some (sign * ((ip : ℚ) + fp) * ex, cs4)

mutual

/-- One JSON value (leading whitespace allowed); returns the remaining input. -/
def jsonVal (fuel : ℕ) (cs : List Char) : Option (JsValue × List Char) :=
  match fuel with
  | 0 => none
  | fuel + 1 =>
    match jsonSkipWs cs with
    | 'n' :: 'u' :: 'l' :: 'l' :: rest => some (.null, rest)
    | 't' :: 'r' :: 'u' :: 'e' :: rest => some (.bool true, rest)
    | 'f' :: 'a' :: 'l' :: 's' :: 'e' :: rest => some (.bool false, rest)
    | '"' :: rest =>
        (jsonStringChars (fuel + 1) rest).map (fun p => (.str (String.mk p.1), p.2))
    | '[' :: rest =>
        (match jsonSkipWs rest with
         | ']' :: rest2 => some (.list [], rest2)
         | _ => (jsonElems fuel rest).map (fun p => (.list p.1, p.2)))
    | '{' :: rest =>
        (match jsonSkipWs rest with
         | '}' :: rest2 => some (.obj [], rest2)
         | _ => (jsonMembers fuel rest).map (fun p => (.obj p.1, p.2)))
    | other => jsonNumber other |>.map (fun p => (.num p.1, p.2))

/-- Comma-separated JSON array elements up to and including `]`. -/
def jsonElems (fuel : ℕ) (cs : List Char) : Option (List JsValue × List Char) :=
  match fuel with
  | 0 => none
  | fuel + 1 =>
    match jsonVal fuel cs with
    | none => none
    | some (v, rest) =>
      match jsonSkipWs rest with
      | ',' :: rest2 => (jsonElems fuel rest2).map (fun p => (v :: p.1, p.2))
      | ']' :: rest2 => some ([v], rest2)
      | _ => none

/-- Comma-separated JSON object members up to and including `}`. -/
def jsonMembers (fuel : ℕ) (cs : List Char) :
    Option (List (String × JsValue) × List Char) :=
  match fuel with
  | 0 => none
  | fuel + 1 =>
    match jsonSkipWs cs with
    | '"' :: rest =>
        (match jsonStringChars (fuel + 1) rest with
         | none => none
         | some (key, rest1) =>
           match jsonSkipWs rest1 with
           | ':' :: rest2 =>
               (match jsonVal fuel rest2 with
                | none => none
                | some (v, rest3) =>
                  match jsonSkipWs rest3 with
                  | ',' :: rest4 =>
                      (jsonMembers fuel rest4).map
                        (fun p => ((String.mk key, v) :: p.1, p.2))
                  | '}' :: rest4 => some ([(String.mk key, v)], rest4)
                  | _ => none)
           | _ => none)
    | _ => none

end

/-- Model of `JSON.parse`: whole-input parse, `none` on any syntax error. -/
def jsonParse (s : String) : Option JsValue :=
  match jsonVal (2 * s.length + 2) s.toList with
  | some (v, rest) => if jsonSkipWs rest = [] then some v else none
  | none => none

/-! ### Data model shared by the validation panel (`src/components/data-upload.tsx`) -/

/-- One validation outcome (interface `ValidationResult` in the source). -/
structure Finding where
  type : String
  category : String
  message : String
  location : Option String := none
  suggestion : Option String := none
  severity : Option String := none
deriving Repr, DecidableEq

/-- The three record collections handed to every check. -/
structure DataSet where
  clients : List JsRecord
  workers : List JsRecord
  tasks : List JsRecord
deriving Repr, DecidableEq

/-- Join of a JS array with a separator (`Array.prototype.join`):
`null`/`undefined` elements render empty. -/
def jsArrayJoin (xs : List JsValue) (sep : String) : String :=
  String.intercalate sep (xs.map (fun x =>
    match x with
    | .null => ""
    | .undefined => ""
    | v => jsToString v))

/-- `parseArrayField` of `ValidationPanel` (also the identical local copy in
`src/unnamed/part_001`): falsy input gives `[]`; arrays pass through; a string
shaped `[...]` is `JSON.parse`d (`[]` when that throws); any other string is
split on commas and trimmed.  A successful parse of a `[...]`-shaped string is
always an array, hence the `.list` match. -/
def parseArrayField (field : JsValue) : List JsValue :=
  if ¬ jsTruthy field then []
  else
    match field with
    | .list xs => xs
    | .str s =>
        if jsStartsWith s "[" ∧ jsEndsWith s "]" then
          match jsonParse s with
          | some (.list xs) => xs
          | _ => []
        else (splitOnChar ',' s).map (fun item => .str (jsTrim item))
    | _ => []

/-- `parseJsonField` of `ValidationPanel`: falsy input gives `{}`; values of
JS `typeof` `"object"` (objects and arrays; `null` is falsy and already
returned) pass through; a string is `JSON.parse`d, `null` when that throws;
anything else gives `{}`. -/
def parseJsonField (field : JsValue) : JsValue :=
  if ¬ jsTruthy field then .obj []
  else
    match field with
    | .obj _ => field
    | .list _ => field
    | .str s =>
        match jsonParse s with
        | some v => v
        | none => .null
    | _ => .obj []

/-! ### The validation rule catalog (`ValidationPanel` in `data-upload.tsx`) -/

/-- Template-literal fragment `${row.Field || index}`. -/
def orIndexStr (r : JsRecord) (field : String) (i : ℕ) : String :=
  let v := getProp r field
  if jsTruthy v then jsToString v else toString i

/-- `s.split(",").map(x => x.trim())`. -/
def splitTrim (s : String) : List String :=
  (splitOnChar ',' s).map jsTrim

/-- The `requiredColumns` table of check 1, in declaration order. -/
def requiredColumnsTable : List (String × List String) :=
  [("clients", ["ClientID", "ClientName", "PriorityLevel"]),
   ("workers", ["WorkerID", "WorkerName", "Skills", "AvailableSlots", "MaxLoadPerPhase"]),
   ("tasks", ["TaskID", "TaskName", "Duration", "RequiredSkills"])]

/-- `dataSet[type]` for the keys of `requiredColumnsTable`. -/
def collOf (ds : DataSet) : String → List JsRecord
  | "clients" => ds.clients
  | "workers" => ds.workers
  | "tasks" => ds.tasks
  | _ => []

/-- Check 1, `validateRequiredColumns`: for each nonempty collection, each
declared required column missing from the keys of the first record yields one
critical error. -/
def validateRequiredColumns (ds : DataSet) : List Finding :=
  requiredColumnsTable.flatMap (fun p =>
    match collOf ds p.1 with
    | [] => []
    | first :: _ =>
        let columns := first.map Prod.fst
        p.2.filterMap (fun col =>
          if columns.contains col then none
          else some
            { type := "error", category := "Missing Columns",
              message := "Required column '" ++ col ++ "' is missing in " ++ p.1,
              location := some p.1,
              suggestion := some ("Add the '" ++ col ++ "' column to your " ++ p.1 ++ " data"),
              severity := some "critical" }))

/-- `isNaN(Number(slot)) || Number(slot) < 1`. -/
def invalidSlotValue (slot : JsValue) : Bool :=
  match jsNumber slot with
  | none => true
  | some n => n < 1

/-- Check 2, `validateDataTypes`: `AvailableSlots` entries of workers and
`PreferredPhases` entries of tasks must coerce to numbers `≥ 1`. -/
def validateDataTypes (ds : DataSet) : List Finding :=
  (ds.workers.enum.filterMap (fun p =>
    let worker := p.2
    if jsTruthy (getProp worker "AvailableSlots") then
      let slots := parseArrayField (getProp worker "AvailableSlots")
      let invalidSlots := slots.filter invalidSlotValue
      if invalidSlots.length > 0 then
        some
          { type := "error", category := "Malformed Data",
            message := "Invalid AvailableSlots format for worker " ++
              orIndexStr worker "WorkerID" p.1 ++ ": " ++ jsArrayJoin invalidSlots ", ",
            location := some ("workers[" ++ toString p.1 ++ "]"),
            suggestion := some "AvailableSlots should be numeric phase numbers (e.g., [1,2,3])",
            severity := some "high" }
      else none
    else none))
  ++
  (ds.tasks.enum.filterMap (fun p =>
    let task := p.2
    if jsTruthy (getProp task "PreferredPhases") then
      let phases := parseArrayField (getProp task "PreferredPhases")
      let invalidPhases := phases.filter invalidSlotValue
      if invalidPhases.length > 0 then
        some
          { type := "error", category := "Malformed Data",
            message := "Invalid PreferredPhases format for task " ++
              orIndexStr task "TaskID" p.1 ++ ": " ++ jsArrayJoin invalidPhases ", ",
            location := some ("tasks[" ++ toString p.1 ++ "]"),
            suggestion := some "PreferredPhases should be numeric phase numbers or ranges",
            severity := some "high" }
      else none
    else none))

/-- `ids.filter((id, index) => ids.indexOf(id) !== index)`: elements not at
their first occurrence. -/
def jsDuplicates (ids : List JsValue) : List JsValue :=
  ids.enum.filterMap (fun p => if ids.indexOf p.2 = p.1 then none else some p.2)

/-- `checkDuplicates` of check 3. -/
def checkDuplicates (data : List JsRecord) (idField ty : String) : List Finding :=
  let ids := (data.map (fun row => getProp row idField)).filter jsTruthy
  let duplicates := jsDuplicates ids
  if duplicates.length > 0 then
    [{ type := "error", category := "Duplicate IDs",
       message := "Duplicate " ++ idField ++ "s found in " ++ ty ++ ": " ++
         jsArrayJoin (dedupFirst duplicates) ", ",
       location := some ty,
       suggestion := some "Ensure all IDs are unique within each dataset",
       severity := some "critical" }]
  else []

/-- Check 3, `validateDuplicateIds`. -/
def validateDuplicateIds (ds : DataSet) : List Finding :=
  checkDuplicates ds.clients "ClientID" "clients" ++
  checkDuplicates ds.workers "WorkerID" "workers" ++
  checkDuplicates ds.tasks "TaskID" "tasks"

/-- The client branch of check 4: `Number.parseInt(PriorityLevel)` is `NaN`
or outside `[1,5]`. -/
def badPriorityLevel (client : JsRecord) : Bool :=
  match parseIntJS (getProp client "PriorityLevel") with
  | none => true
  | some p => p < 1 ∨ p > 5

/-- The task branch of check 4: `Number.parseInt(Duration)` is `NaN` or `< 1`. -/
def badDuration (task : JsRecord) : Bool :=
  match parseIntJS (getProp task "Duration") with
  | none => true
  | some d => d < 1

/-- The worker branch of check 4: `Number.parseInt(MaxLoadPerPhase)` is `NaN`
or `< 1`. -/
def badMaxLoad (worker : JsRecord) : Bool :=
  match parseIntJS (getProp worker "MaxLoadPerPhase") with
  | none => true
  | some m => m < 1

/-- Check 4, `validateValueRanges`. -/
def validateValueRanges (ds : DataSet) : List Finding :=
  (ds.clients.enum.filterMap (fun p =>
    if badPriorityLevel p.2 then
      some
        { type := "error", category := "Invalid Range",
          message := "Invalid PriorityLevel '" ++ jsToString (getProp p.2 "PriorityLevel") ++
            "' for client " ++ orIndexStr p.2 "ClientID" p.1,
          location := some ("clients[" ++ toString p.1 ++ "]"),
          suggestion := some "PriorityLevel must be between 1 and 5",
          severity := some "high" }
    else none))
  ++
  (ds.tasks.enum.filterMap (fun p =>
    if badDuration p.2 then
      some
        { type := "error", category := "Invalid Range",
          message := "Invalid Duration '" ++ jsToString (getProp p.2 "Duration") ++
            "' for task " ++ orIndexStr p.2 "TaskID" p.1,
          location := some ("tasks[" ++ toString p.1 ++ "]"),
          suggestion := some "Duration must be a positive number (≥1)",
          severity := some "high" }
    else none))
  ++
  (ds.workers.enum.filterMap (fun p =>
    if badMaxLoad p.2 then
      some
        { type := "error", category := "Invalid Range",
          message := "Invalid MaxLoadPerPhase '" ++ jsToString (getProp p.2 "MaxLoadPerPhase") ++
            "' for worker " ++ orIndexStr p.2 "WorkerID" p.1,
          location := some ("workers[" ++ toString p.1 ++ "]"),
          suggestion := some "MaxLoadPerPhase must be a positive number",
          severity := some "high" }
    else none))

/-- Check 5, `validateJsonFields`: a truthy `AttributesJSON` whose
`parseJsonField` is `null` (i.e. a string that fails `JSON.parse`, or the
string `"null"`) yields one medium error per client. -/
def validateJsonFields (ds : DataSet) : List Finding :=
  ds.clients.enum.filterMap (fun p =>
    let attr := getProp p.2 "AttributesJSON"
    if jsTruthy attr then
      if parseJsonField attr = .null then
        some
          { type := "error", category := "Broken JSON",
            message := "Invalid JSON in AttributesJSON for client " ++ orIndexStr p.2 "ClientID" p.1,
            location := some ("clients[" ++ toString p.1 ++ "]"),
            suggestion := some "Ensure AttributesJSON contains valid JSON format",
            severity := some "medium" }
      else none
    else none)

/-- Check 6, `validateCrossReferences`: every entry of a client's
`RequestedTaskIDs` (a comma-separated string; the source calls `.split` on it)
must equal an existing truthy `TaskID`.  Set membership is `===`, modelled by
`JsValue` equality against the stored values. -/
def validateCrossReferences (ds : DataSet) : List Finding :=
  let taskIds := (ds.tasks.map (fun t => getProp t "TaskID")).filter jsTruthy
  ds.clients.enum.flatMap (fun p =>
    match getProp p.2 "RequestedTaskIDs" with
    | .str s =>
        if s ≠ "" then
          (splitTrim s).filterMap (fun taskId =>
            if taskId ≠ "" ∧ ¬ taskIds.contains (.str taskId) then
              some
                { type := "error", category := "Invalid Reference",
                  message := "Client " ++ orIndexStr p.2 "ClientID" p.1 ++
                    " references non-existent task '" ++ taskId ++ "'",
                  location := some ("clients[" ++ toString p.1 ++ "]"),
                  suggestion := some ("Ensure task '" ++ taskId ++ "' exists in the tasks dataset"),
                  severity := some "high" }
            else none)
        else []
    | _ => [])

/-- All skills split out of truthy `RequiredSkills` strings of tasks, in
order, duplicates kept (the source inserts them into a `Set`). -/
def taskRequiredSkillsRaw (ds : DataSet) : List String :=
  ds.tasks.flatMap (fun t =>
    match getProp t "RequiredSkills" with
    | .str s => if s ≠ "" then splitTrim s else []
    | _ => [])

/-- All skills split out of truthy `Skills` strings of workers. -/
def workerSkillsRaw (ds : DataSet) : List String :=
  ds.workers.flatMap (fun w =>
    match getProp w "Skills" with
    | .str s => if s ≠ "" then splitTrim s else []
    | _ => [])

/-- `[...allRequiredSkills].filter(s => !allAvailableSkills.has(s))` of check 7:
distinct required skills, in first-insertion order, not held by any worker. -/
def uncoveredSkills (ds : DataSet) : List String :=
  (dedupFirst (taskRequiredSkillsRaw ds)).filter
    (fun skill => !(workerSkillsRaw ds).contains skill)

/-- Check 7, `validateSkillCoverage`: a single critical error listing the
uncovered skills, when any. -/
def validateSkillCoverage (ds : DataSet) : List Finding :=
  if uncoveredSkills ds ≠ [] then
    [{ type := "error", category := "Skill Coverage",
       message := "Required skills not covered by any worker: " ++
         String.intercalate ", " (uncoveredSkills ds),
       location := none,
       suggestion := some "Add workers with these skills or update task requirements",
       severity := some "critical" }]
  else []

/-- Check 8, `validateWorkerCapacity`: the guarded product of two positives is
never zero, so this check can never fire; embedded faithfully nonetheless. -/
def validateWorkerCapacity (ds : DataSet) : List Finding :=
  ds.workers.enum.filterMap (fun p =>
    let availableSlots := parseArrayField (getProp p.2 "AvailableSlots")
    let maxLoad : ℤ := (parseIntJS (getProp p.2 "MaxLoadPerPhase")).getD 0
    if availableSlots.length > 0 ∧ maxLoad > 0 then
      let totalCapacity : ℤ := (availableSlots.length : ℤ) * maxLoad
      if totalCapacity = 0 then
        some
          { type := "warning", category := "Worker Capacity",
            message := "Worker " ++ orIndexStr p.2 "WorkerID" p.1 ++ " has no effective capacity",
            location := some ("workers[" ++ toString p.1 ++ "]"),
            suggestion := some "Ensure worker has both available slots and positive max load per phase",
            severity := some "medium" }
      else none
    else none)

/-- Add `v` to the entry of numeric key `k` of a JS object used as a
number-keyed accumulator (`m[k] = (m[k] || 0) + v`). -/
def bumpNumEntry (m : List (ℚ × ℚ)) (k : ℚ) (v : ℚ) : List (ℚ × ℚ) :=
  match m.lookup k with
  | some old => m.map (fun p => if p.1 = k then (p.1, old + v) else p)
  | none => m ++ [(k, v)]

/-- Ascending insertion of a rational into a sorted list. -/
def insRatAsc (x : ℚ) : List ℚ → List ℚ
  | [] => [x]
  | y :: ys => if x ≤ y then x :: y :: ys else y :: insRatAsc x ys

/-- `Object.keys` order for a number-keyed object: canonical array-index keys
(nonnegative integers) ascending first, then the rest in insertion order. -/
def jsNumKeyOrder (ks : List ℚ) : List ℚ :=
  ((ks.filter (fun k => k.den = 1 ∧ 0 ≤ k.num)).foldr insRatAsc []) ++
    ks.filter (fun k => ¬ (k.den = 1 ∧ 0 ≤ k.num))

/-- Per-phase worker capacity of check 9. -/
def phaseCapacityMap (ds : DataSet) : List (ℚ × ℚ) :=
  ds.workers.foldl (fun m worker =>
    let slots := parseArrayField (getProp worker "AvailableSlots")
    let maxLoad : ℤ := (parseIntJS (getProp worker "MaxLoadPerPhase")).getD 0
    slots.foldl (fun m phase =>
      match jsNumber phase with
      | some phaseNum => bumpNumEntry m phaseNum (maxLoad : ℚ)
      | none => m) m) []

/-- Per-phase task demand of check 9. -/
def phaseDemandMap (ds : DataSet) : List (ℚ × ℚ) :=
  ds.tasks.foldl (fun m task =>
    let duration : ℤ := (parseIntJS (getProp task "Duration")).getD 0
    let preferredPhases := parseArrayField (getProp task "PreferredPhases")
    if preferredPhases.length > 0 then
      preferredPhases.foldl (fun m phase =>
        match jsNumber phase with
        | some phaseNum => bumpNumEntry m phaseNum (duration : ℚ)
        | none => m) m
    else m) []

/-- Check 9, `validatePhaseConstraints`: a high warning for every phase whose
demand exceeds its capacity, iterating `Object.keys(phaseDemand)`. -/
def validatePhaseConstraints (ds : DataSet) : List Finding :=
  let phaseCapacity := phaseCapacityMap ds
  let phaseDemand := phaseDemandMap ds
  (jsNumKeyOrder (phaseDemand.map Prod.fst)).filterMap (fun phaseNum =>
    let demand := (phaseDemand.lookup phaseNum).getD 0
    let capacity := (phaseCapacity.lookup phaseNum).getD 0
    if demand > capacity then
      some
        { type := "warning", category := "Phase Saturation",
          message := "Phase " ++ ratToString phaseNum ++ " is oversaturated: demand (" ++
            ratToString demand ++ ") exceeds capacity (" ++ ratToString capacity ++ ")",
          location := none,
          suggestion := some "Consider redistributing tasks or adding more worker capacity for this phase",
          severity := some "high" }
    else none)

/-- `Number.prototype.toFixed(digits)` for the nonnegative rationals the
insight messages format (ties round to the larger candidate). -/
def ratToFixed (digits : ℕ) (q : ℚ) : String :=
  let n : ℕ := (q * (10 : ℚ) ^ digits + 1 / 2).floor.toNat
  if digits = 0 then toString n
  else
    let fpStr := toString (n % 10 ^ digits)
    toString (n / 10 ^ digits) ++ "." ++
      String.mk (List.replicate (digits - fpStr.length) '0') ++ fpStr

/-- Add one to a string-keyed counter object. -/
def bumpStrEntry (m : List (String × ℚ)) (k : String) : List (String × ℚ) :=
  match m.lookup k with
  | some old => m.map (fun p => if p.1 = k then (p.1, old + 1) else p)
  | none => m ++ [(k, 1)]

/-- Whether a string is a canonical array-index key (`"0"`, or digits without
a leading zero); such keys come first in `Object.entries` order. -/
def isArrayIndexKey (s : String) : Bool :=
  s ≠ "" ∧ s.toList.all Char.isDigit ∧ (s = "0" ∨ s.toList.head? ≠ some '0')

/-- Ascending insertion of an array-index-keyed entry by numeric key value. -/
def insStrIdxAsc (x : String × ℚ) : List (String × ℚ) → List (String × ℚ)
  | [] => [x]
  | y :: ys =>
      if digitsToNat x.1.toList ≤ digitsToNat y.1.toList then x :: y :: ys
      else y :: insStrIdxAsc x ys

/-- `Object.entries` order for a string-keyed object: array-index keys
numerically ascending first, then the rest in insertion order. -/
def jsStrKeyOrder (m : List (String × ℚ)) : List (String × ℚ) :=
  ((m.filter (fun p => isArrayIndexKey p.1)).foldr insStrIdxAsc []) ++
    m.filter (fun p => ¬ isArrayIndexKey p.1)

/-- Stable insertion for `.sort(([, a], [, b]) => b - a)`: an element goes
after every earlier element with a count `≥` its own. -/
def insCountDesc (x : String × ℚ) : List (String × ℚ) → List (String × ℚ)
  | [] => [x]
  | y :: ys => if x.2 > y.2 then x :: y :: ys else y :: insCountDesc x ys

/-- Stable descending sort by count (JS `Array.prototype.sort` is stable). -/
def sortByCountDesc (l : List (String × ℚ)) : List (String × ℚ) :=
  l.foldl (fun acc x => insCountDesc x acc) []

/-- Check 10, `generateAiInsights`: three advisory warnings. -/
def generateAiInsights (ds : DataSet) : List Finding :=
  let ratioPart : List Finding :=
    if ds.workers.length > 0 ∧ ds.tasks.length > 0 then
      let avgTasksPerWorker : ℚ := (ds.tasks.length : ℚ) / (ds.workers.length : ℚ)
      if avgTasksPerWorker > 5 then
        [{ type := "warning", category := "AI Insights",
           message := "High task-to-worker ratio detected (" ++
             ratToFixed 1 avgTasksPerWorker ++ " tasks per worker)",
           suggestion := some "Consider adding more workers or reducing task scope",
           severity := some "medium" }]
      else []
    else []
  let skillFrequency : List (String × ℚ) :=
    ds.tasks.foldl (fun m t =>
      match getProp t "RequiredSkills" with
      | .str s => if s ≠ "" then (splitTrim s).foldl bumpStrEntry m else m
      | _ => m) []
  let skillPart : List Finding :=
    match (sortByCountDesc (jsStrKeyOrder skillFrequency)).head? with
    | some md =>
        if md.2 > (ds.tasks.length : ℚ) * (1 / 2) then
          [{ type := "warning", category := "AI Insights",
             message := "Skill '" ++ md.1 ++ "' is required by " ++ ratToString md.2 ++
               " tasks (" ++ ratToFixed 0 (md.2 / (ds.tasks.length : ℚ) * 100) ++ "%)",
             suggestion := some "Ensure adequate workers with this critical skill are available",
             severity := some "medium" }]
        else []
    | none => []
  let priorityDistribution : List (ℤ × ℚ) :=
    ds.clients.foldl (fun m client =>
      let priority : ℤ := (parseIntJS (getProp client "PriorityLevel")).getD 0
      match m.lookup priority with
      | some old => m.map (fun p => if p.1 = priority then (p.1, old + 1) else p)
      | none => m ++ [(priority, 1)]) []
  let highPriorityClients : ℚ :=
    (priorityDistribution.lookup 4).getD 0 + (priorityDistribution.lookup 5).getD 0
  let priorityPart : List Finding :=
    if highPriorityClients > (ds.clients.length : ℚ) * (7 / 10) then
      [{ type := "warning", category := "AI Insights",
         message := ratToString highPriorityClients ++ " clients (" ++
           ratToFixed 0 (highPriorityClients / (ds.clients.length : ℚ) * 100) ++
           "%) have high priority (4-5)",
         suggestion := some "Consider reviewing priority assignments to ensure proper resource allocation",
         severity := some "low" }]
    else []
  ratioPart ++ skillPart ++ priorityPart

/-- The findings of the ten checks of `runValidation`, concatenated in the
fixed execution order of the step loop. -/
def allCheckFindings (ds : DataSet) : List Finding :=
  validateRequiredColumns ds ++ validateDataTypes ds ++ validateDuplicateIds ds ++
  validateValueRanges ds ++ validateJsonFields ds ++ validateCrossReferences ds ++
  validateSkillCoverage ds ++ validateWorkerCapacity ds ++ validatePhaseConstraints ds ++
  generateAiInsights ds

/-- The synthetic success finding `runValidation` prepends. -/
def successFinding : Finding :=
  { type := "success", category := "Data Quality",
    message := "All critical validations passed successfully",
    severity := some "low" }

/-- `results.filter(r => r.type === "error" && r.severity === "critical").length`. -/
def criticalErrorCount (results : List Finding) : ℕ :=
  (results.filter (fun r => r.type = "error" ∧ r.severity = some "critical")).length

/-- The validation orchestrator `runValidation`: run all checks, then
`unshift` the success finding exactly when no critical error was produced
(the progress state updates and pacing delays of the source are UI-only). -/
def runValidation (ds : DataSet) : List Finding :=
  let results := allCheckFindings ds
  if criticalErrorCount results = 0 then successFinding :: results else results

/-! ### Theorems about the validation catalog and orchestrator -/

/-- Auxiliary: length of an enumerate-then-filterMap over a 0/1-result
function equals the length of the plain filter. -/
theorem filterMap_enumFrom_if_length {α β : Type} (p : α → Bool) (f : ℕ × α → β) :
    ∀ (n : ℕ) (l : List α),
      ((List.enumFrom n l).filterMap
          (fun q => if p q.2 then some (f q) else none)).length =
        (l.filter p).length
  | _, [] => rfl
  | n, x :: xs => by
      by_cases h : p x
      · simp only [List.enumFrom, List.filterMap_cons, List.filter_cons, h, if_true]
        simp [filterMap_enumFrom_if_length p f (n + 1) xs]
      · simp only [List.enumFrom, List.filterMap_cons, List.filter_cons, h, if_false]
        simp [filterMap_enumFrom_if_length p f (n + 1) xs, h]

/-- **C1**: the validation orchestrator `runValidation` runs every check,
concatenates their findings in catalog order, and prepends the synthetic
success finding (kind `success`, category `"Data Quality"`) exactly when the
concatenated findings contain zero critical-severity errors; with at least
one critical error the result is the bare concatenation. -/
theorem runValidation_success_iff (ds : DataSet) :
    (criticalErrorCount (allCheckFindings ds) = 0 →
      runValidation ds = successFinding :: allCheckFindings ds) ∧
    (criticalErrorCount (allCheckFindings ds) ≠ 0 →
      runValidation ds = allCheckFindings ds) := by
  refine ⟨fun h => ?_, fun h => ?_⟩ <;> simp [runValidation, h]

/-- Witness for C1: an empty dataset has no critical errors and gets the
success finding prepended; duplicate `ClientID`s produce critical errors and
suppress it. -/
theorem runValidation_success_iff_witness :
    runValidation ⟨[], [], []⟩ = successFinding :: allCheckFindings ⟨[], [], []⟩ ∧
    runValidation ⟨[[("ClientID", JsValue.str "C1")], [("ClientID", JsValue.str "C1")]], [], []⟩ =
      allCheckFindings
        ⟨[[("ClientID", JsValue.str "C1")], [("ClientID", JsValue.str "C1")]], [], []⟩ :=
  ⟨(runValidation_success_iff ⟨[], [], []⟩).1 (by with_unfolding_all decide),
   (runValidation_success_iff _).2 (by with_unfolding_all decide)⟩

/-- **C2**: the Skill Coverage check emits exactly one critical `"Skill
Coverage"` error listing every uncovered skill when the required-skills union
minus the worker-skills union is non-empty, and nothing at all when every
required skill is covered by at least one worker. -/
theorem validateSkillCoverage_spec (ds : DataSet) :
    (uncoveredSkills ds = [] ↔ ∀ s ∈ taskRequiredSkillsRaw ds, s ∈ workerSkillsRaw ds) ∧
    (uncoveredSkills ds ≠ [] →
      validateSkillCoverage ds =
        [{ type := "error", category := "Skill Coverage",
           message := "Required skills not covered by any worker: " ++
             String.intercalate ", " (uncoveredSkills ds),
           location := none,
           suggestion := some "Add workers with these skills or update task requirements",
           severity := some "critical" }]) ∧
    (uncoveredSkills ds = [] → validateSkillCoverage ds = []) := by
  refine ⟨?_, fun h => ?_, fun h => ?_⟩
  · unfold uncoveredSkills
    rw [List.filter_eq_nil_iff]
    constructor
    · intro h s hs
      have hd := h s ((mem_dedupFirst s _).mpr hs)
      simpa using hd
    · intro h s hs
      have hm := h s ((mem_dedupFirst s _).mp hs)
      simpa using hm
  · simp [validateSkillCoverage, h]
  · simp [validateSkillCoverage, h]

/-- Witness for C2: with required skills `python, ml` and worker skills
`python, sql`, exactly the single critical finding listing `ml` is emitted;
with every skill covered, no finding is emitted. -/
theorem validateSkillCoverage_spec_witness :
    validateSkillCoverage ⟨[], [[("Skills", JsValue.str "python, sql")]],
        [[("RequiredSkills", JsValue.str "python, ml")]]⟩ =
      [{ type := "error", category := "Skill Coverage",
         message := "Required skills not covered by any worker: " ++
           String.intercalate ", "
             (uncoveredSkills ⟨[], [[("Skills", JsValue.str "python, sql")]],
               [[("RequiredSkills", JsValue.str "python, ml")]]⟩),
         location := none,
         suggestion := some "Add workers with these skills or update task requirements",
         severity := some "critical" }] ∧
    validateSkillCoverage ⟨[], [[("Skills", JsValue.str "python, sql")]],
        [[("RequiredSkills", JsValue.str "python, sql")]]⟩ = [] :=
  ⟨(validateSkillCoverage_spec _).2.1 (by with_unfolding_all decide),
   (validateSkillCoverage_spec _).2.2 (by with_unfolding_all decide)⟩

/-- Counterexample to **C5** as stated: `PriorityLevel = "3.5"` is not an
integer in `[1,5]`, yet the Value Ranges check emits no finding, because the
source range-checks `Number.parseInt(PriorityLevel)`, which truncates
`"3.5"` to the in-range `3`. -/
theorem validateValueRanges_noninteger_counterexample :
    validateValueRanges ⟨[[("PriorityLevel", JsValue.str "3.5")]], [], []⟩ = [] := by
  decide

/-- **C5** (amended): the Value Ranges check emits one high-severity
`"Invalid Range"` error per offending record, where a client offends exactly
when `parseInt(PriorityLevel)` is `NaN` or outside `[1,5]`, a task exactly
when `parseInt(Duration)` is `NaN` or `< 1`, and a worker exactly when
`parseInt(MaxLoadPerPhase)` is `NaN` or `< 1`; in particular
`PriorityLevel = 6` and `PriorityLevel = 0` each yield such a finding and
`PriorityLevel = 3` yields none. -/
theorem validateValueRanges_spec :
    (∀ ds : DataSet,
      (validateValueRanges ds).length =
        (ds.clients.filter badPriorityLevel).length +
        (ds.tasks.filter badDuration).length +
        (ds.workers.filter badMaxLoad).length) ∧
    (∀ ds : DataSet, ∀ f ∈ validateValueRanges ds,
      f.type = "error" ∧ f.category = "Invalid Range" ∧ f.severity = some "high") ∧
    (validateValueRanges ⟨[[("PriorityLevel", JsValue.num 6)]], [], []⟩).length = 1 ∧
    (validateValueRanges ⟨[[("PriorityLevel", JsValue.num 0)]], [], []⟩).length = 1 ∧
    validateValueRanges ⟨[[("PriorityLevel", JsValue.num 3)]], [], []⟩ = [] := by
  refine ⟨fun ds => ?_, fun ds f hf => ?_, by with_unfolding_all decide, by with_unfolding_all decide, by with_unfolding_all decide⟩
  · simp only [validateValueRanges, List.enum, List.length_append,
      filterMap_enumFrom_if_length]
  · simp only [validateValueRanges, List.mem_append, List.mem_filterMap] at hf
    rcases hf with (⟨a, _, heq⟩ | ⟨a, _, heq⟩) | ⟨a, _, heq⟩ <;>
      · split at heq
        · cases heq; exact ⟨rfl, rfl, rfl⟩
        · cases heq

/-- Witness for C5 (amended): the general parts applied at a concrete
dataset with one out-of-range client. -/
theorem validateValueRanges_spec_witness :
    (validateValueRanges ⟨[[("PriorityLevel", JsValue.num 6)], [("PriorityLevel", JsValue.num 2)]],
        [], []⟩).length =
      ((([[("PriorityLevel", JsValue.num 6)], [("PriorityLevel", JsValue.num 2)]] :
          List JsRecord).filter badPriorityLevel).length + 0 + 0) ∧
    ∀ f ∈ validateValueRanges ⟨[[("PriorityLevel", JsValue.num 6)]], [], []⟩,
      f.type = "error" ∧ f.category = "Invalid Range" ∧ f.severity = some "high" :=
  ⟨validateValueRanges_spec.1 _, fun f hf => validateValueRanges_spec.2.1 _ f hf⟩

/-- Counterexample to **C7** as stated: the empty string is a string input
that fails to parse as JSON, yet `parseJsonField` returns `{}` (not `null`)
and `parseArrayField` returns `[]` (not the comma-split `[""]`), because both
functions short-circuit on JS-falsy input before any string handling. -/
theorem parseFields_falsy_counterexample :
    parseJsonField (JsValue.str "") = JsValue.obj [] ∧
    JsValue.obj ([] : List (String × JsValue)) ≠ JsValue.null ∧
    parseArrayField (JsValue.str "") = [] ∧
    splitOnChar ',' "" = [""] := by
  refine ⟨by with_unfolding_all decide, by with_unfolding_all decide, by with_unfolding_all decide, by with_unfolding_all decide⟩

/-- **C7** (amended): `parseArrayField` and `parseJsonField` are total.
`parseArrayField` returns a list argument unchanged; for JS-falsy input
(empty string, `null`, `undefined`, `0`, `false`) both short-circuit, to `[]`
and `{}` respectively; a non-empty string shaped `[...]` is JSON-parsed with
`[]` on failure; any other non-empty string is comma-split and trimmed;
`parseJsonField` returns object input unchanged and maps a non-empty string
to its JSON parse, or to `null` (distinct from `{}`) when the parse fails. -/
theorem parseFields_spec :
    (∀ xs, parseArrayField (JsValue.list xs) = xs) ∧
    (∀ fields, parseJsonField (JsValue.obj fields) = JsValue.obj fields) ∧
    (∀ v, jsTruthy v = false → parseArrayField v = [] ∧ parseJsonField v = JsValue.obj []) ∧
    (∀ s, s ≠ "" → jsStartsWith s "[" → jsEndsWith s "]" →
      parseArrayField (JsValue.str s) =
        match jsonParse s with
        | some (JsValue.list xs) => xs
        | _ => []) ∧
    (∀ s, s ≠ "" → ¬ (jsStartsWith s "[" ∧ jsEndsWith s "]") →
      parseArrayField (JsValue.str s) =
        (splitOnChar ',' s).map (fun item => JsValue.str (jsTrim item))) ∧
    (∀ s, s ≠ "" →
      parseJsonField (JsValue.str s) =
        match jsonParse s with
        | some v => v
        | none => JsValue.null) ∧
    parseJsonField (JsValue.str "\x7bbad json") = JsValue.null ∧
    parseArrayField (JsValue.str "[1,2,]") = [] ∧
    parseArrayField (JsValue.str "[1, 2]") = [JsValue.num 1, JsValue.num 2] := by
  refine ⟨fun xs => rfl, fun fields => rfl, fun v h => ?_, fun s h1 h2 h3 => ?_,
    fun s h1 h2 => ?_, fun s h1 => ?_, by with_unfolding_all decide, by with_unfolding_all decide, by with_unfolding_all decide⟩
  · constructor <;> simp [parseArrayField, parseJsonField, h]
  · simp [parseArrayField, jsTruthy, h1, h2, h3]
  · simp only [parseArrayField, jsTruthy]
    rw [if_neg, if_neg h2]
    simp [h1]
  · simp [parseJsonField, jsTruthy, h1]

/-- Witness for C7 (amended): the string branches applied at concrete
inputs. -/
theorem parseFields_spec_witness :
    parseArrayField (JsValue.str "x,y") = [JsValue.str "x", JsValue.str "y"] ∧
    parseJsonField (JsValue.str "\x7b\x22a\x22: 1\x7d") = JsValue.obj [("a", JsValue.num 1)] ∧
    parseArrayField (JsValue.str "[true]") = [JsValue.bool true] ∧
    parseArrayField (JsValue.num 0) = [] := by
  refine ⟨?_, ?_, ?_, ?_⟩
  · rw [parseFields_spec.2.2.2.2.1 "x,y" (by with_unfolding_all decide) (by with_unfolding_all decide)]; with_unfolding_all decide
  · rw [parseFields_spec.2.2.2.2.2.1 "\x7b\x22a\x22: 1\x7d" (by with_unfolding_all decide)]; with_unfolding_all decide
  · rw [parseFields_spec.2.2.2.1 "[true]" (by with_unfolding_all decide) (by with_unfolding_all decide) (by with_unfolding_all decide)]; with_unfolding_all decide
  · exact (parseFields_spec.2.2.1 (JsValue.num 0) (by with_unfolding_all decide)).1

/-! ### The condition model and executor (`src/unnamed/part_001`) -/

/-- Interface `ParsedCondition`.  The declared TS type of `type` is the union
of the four known kinds, but conditions coming back from the external-assist
path are cast unchecked, so the executor's `switch` default is reachable;
`type` is therefore modelled as a string. -/
structure ParsedCondition where
  field : String
  operator : String
  value : JsValue
  type : String
deriving Repr, DecidableEq

/-- `getNestedValue(obj, path)`: walk the dot-separated path; at a key
containing `"JSON"` whose value is a string, try `JSON.parse` and fall back
to the raw string.  A non-object intermediate yields `undefined`; an array is
indexed by an all-digits key. -/
def getNestedValue (v : JsValue) (path : String) : JsValue :=
  (splitOnChar '.' path).foldl (fun current key =>
    match current with
    | .obj fields =>
        let raw := getProp fields key
        if containsSub key "JSON" then
          match raw with
          | .str s =>
              match jsonParse s with
              | some parsed => parsed
              | none => .str s
          | _ => raw
        else raw
    | .list xs =>
        if key ≠ "" ∧ key.toList.all Char.isDigit then
          match xs.get? (digitsToNat key.toList) with
          | some x => x
          | none => .undefined
        else .undefined
    | _ => .undefined) v

/-- Reverse of the recorded upload-time header mappings: the source builds
`reverseMappings[mapped] = original` with a `forEach`, so a later entry for
the same mapped name wins. -/
def reverseLookup (mappings : List (String × String)) (field : String) : Option String :=
  ((mappings.filter (fun p => p.2 = field)).getLast?).map Prod.fst

/-- The executor's `fieldMappings` table of alternative spellings. -/
def fieldAltTable : List (String × List String) :=
  [("PriorityLevel", ["Priori", "Priority", "priority", "priorityLevel"]),
   ("ClientName", ["Name", "name", "clientName"]),
   ("WorkerName", ["Name", "name", "workerName"]),
   ("TaskName", ["Name", "name", "taskName"]),
   ("ClientID", ["ID", "id", "clientId"]),
   ("WorkerID", ["ID", "id", "workerId"]),
   ("TaskID", ["ID", "id", "taskId"]),
   ("GroupTag", ["Group", "group", "groupTag"]),
   ("WorkerGroup", ["Group", "group", "workerGroup"]),
   ("Skills", ["skills", "skill"]),
   ("RequiredSkills", ["RequiredSkill", "requiredSkill", "skills", "skill"]),
   ("AvailableSlots", ["Slots", "slots", "availableSlots"]),
   ("PreferredPhases", ["Phases", "phases", "preferredPhases"]),
   ("RequestedTaskIDs", ["RequestedTasks", "requestedTasks", "tasks"]),
   ("Duration", ["duration"]),
   ("MaxConcurrent", ["maxConcurrent", "concurrent"]),
   ("MaxLoadPerPhase", ["MaxLoad", "maxLoad", "load"]),
   ("QualificationLevel", ["Qualification", "qualification", "level"]),
   ("AttributesJSON", ["AttributesJSON"])]

/-- The executor's four-step field resolution: (a) reverse header mapping
(used only when the recorded original header is truthy), (b) the field name
as-is, (c) the alternative-spelling table with break-on-first-defined,
(d) raw property access.  Only `undefined` falls through to the next step. -/
def resolveFieldValue (mappings : List (String × String)) (item : JsRecord)
    (field : String) : JsValue :=
  let v1 : JsValue :=
    match reverseLookup mappings field with
    | some orig => if orig ≠ "" then getNestedValue (.obj item) orig else .undefined
    | none => .undefined
  let v2 := if v1 = .undefined then getNestedValue (.obj item) field else v1
  let v3 :=
    if v2 = .undefined then
      ((fieldAltTable.lookup field).getD []).foldl (fun acc alt =>
        if acc = .undefined then getNestedValue (.obj item) alt else acc) .undefined
    else v2
  if v3 = .undefined then getProp item field else v3

/-- The numeric `switch (condition.operator)` of the executor. -/
def numericOpEval (op : String) (nv cv : ℚ) : Bool :=
  if op = ">" then nv > cv
  else if op = "<" then nv < cv
  else if op = "=" ∨ op = "==" ∨ op = "===" then nv = cv
  else if op = ">=" then nv ≥ cv
  else if op = "<=" then nv ≤ cv
  else false

/-- One condition evaluated against one record: resolve the field, fail on
`undefined`/`null`, then dispatch on the condition's `type` exactly as the
executor's `switch` does, with `true` as the default branch.  For the `array`
case the source calls `.some` on `condition.value`, which requires an actual
array (anything else would throw); the model returns `false` there. -/
def evalCondition (mappings : List (String × String)) (item : JsRecord)
    (c : ParsedCondition) : Bool :=
  let fieldValue := resolveFieldValue mappings item c.field
  if fieldValue = .undefined ∨ fieldValue = .null then false
  else if c.type = "numeric" then
    match jsNumber fieldValue, jsNumber c.value with
    | some nv, some cv => numericOpEval c.operator nv cv
    | _, _ => false
  else if c.type = "string" then
    let strValue := if jsTruthy fieldValue then jsToLower (jsToString fieldValue) else ""
    let searchValue := jsToLower (jsToString c.value)
    if c.operator = "contains" then containsSub strValue searchValue
    else if c.operator = "=" ∨ c.operator = "==" ∨ c.operator = "===" then strValue = searchValue
    else containsSub strValue searchValue
  else if c.type = "array" then
    if c.operator = "in" then
      let arrayValue := parseArrayField fieldValue
      match c.value with
      | .list vs =>
          vs.any (fun val =>
            (match jsNumber val with
             | some n => arrayValue.contains (JsValue.num n)
             | none => false) || arrayValue.contains (JsValue.str (jsToString val)))
      | _ => false
    else false
  else if c.type = "boolean" then
    jsTruthy fieldValue = jsTruthy c.value
  else true

/-- `executeSearch`: keep exactly the records on which every condition holds. -/
def executeSearch (conditions : List ParsedCondition) (data : List JsRecord)
    (mappings : List (String × String)) : List JsRecord :=
  data.filter (fun item => conditions.all (fun c => evalCondition mappings item c))

/-- **C4**: the Condition Executor returns exactly the records on which every
condition evaluates true (pure conjunction), and a condition whose field
resolves to `undefined` or `null` after all four lookup attempts evaluates
false for that record, so missing data never acts as a wildcard match. -/
theorem executeSearch_spec :
    (∀ (mappings : List (String × String)) (conditions : List ParsedCondition)
        (data : List JsRecord) (item : JsRecord),
      item ∈ executeSearch conditions data mappings ↔
        item ∈ data ∧ ∀ c ∈ conditions, evalCondition mappings item c = true) ∧
    (∀ (mappings : List (String × String)) (item : JsRecord) (c : ParsedCondition),
      resolveFieldValue mappings item c.field = JsValue.undefined ∨
        resolveFieldValue mappings item c.field = JsValue.null →
      evalCondition mappings item c = false) := by
  constructor
  · intro mappings conditions data item
    simp [executeSearch, List.mem_filter, List.all_eq_true]
  · intro mappings item c h
    rcases h with h | h <;> simp [evalCondition, h]

/-- Witness for C4: a record lacking the condition's field is excluded (the
conjunction part applied to a singleton collection, and the missing-field
part applied directly). -/
theorem executeSearch_spec_witness :
    (([] : JsRecord) ∈ executeSearch [] [[]] [] ↔
      ([] : JsRecord) ∈ [([] : JsRecord)] ∧
        ∀ c ∈ ([] : List ParsedCondition), evalCondition [] [] c = true) ∧
    evalCondition [] [("Other", JsValue.num 1)]
      ⟨"MissingField", ">", JsValue.num 3, "numeric"⟩ = false :=
  ⟨executeSearch_spec.1 [] [] [[]] [],
   executeSearch_spec.2 [] [("Other", JsValue.num 1)]
     ⟨"MissingField", ">", JsValue.num 3, "numeric"⟩
     (Or.inl (by with_unfolding_all decide))⟩

/-- **C9**: a condition whose `type` is none of the four known kinds hits the
`switch` default and evaluates `true` whenever its field resolves to a
defined non-null value, so it never excludes a record whose field is present;
by contrast each of the four known types can exclude such a record. -/
theorem evalCondition_unknown_type_spec :
    (∀ (mappings : List (String × String)) (item : JsRecord) (c : ParsedCondition),
      c.type ≠ "numeric" → c.type ≠ "string" → c.type ≠ "array" → c.type ≠ "boolean" →
      resolveFieldValue mappings item c.field ≠ JsValue.undefined →
      resolveFieldValue mappings item c.field ≠ JsValue.null →
      evalCondition mappings item c = true) ∧
    (∃ (item : JsRecord) (c : ParsedCondition), c.type = "numeric" ∧
      resolveFieldValue [] item c.field ≠ JsValue.undefined ∧
      resolveFieldValue [] item c.field ≠ JsValue.null ∧
      evalCondition [] item c = false) ∧
    (∃ (item : JsRecord) (c : ParsedCondition), c.type = "string" ∧
      resolveFieldValue [] item c.field ≠ JsValue.undefined ∧
      resolveFieldValue [] item c.field ≠ JsValue.null ∧
      evalCondition [] item c = false) ∧
    (∃ (item : JsRecord) (c : ParsedCondition), c.type = "array" ∧
      resolveFieldValue [] item c.field ≠ JsValue.undefined ∧
      resolveFieldValue [] item c.field ≠ JsValue.null ∧
      evalCondition [] item c = false) ∧
    (∃ (item : JsRecord) (c : ParsedCondition), c.type = "boolean" ∧
      resolveFieldValue [] item c.field ≠ JsValue.undefined ∧
      resolveFieldValue [] item c.field ≠ JsValue.null ∧
      evalCondition [] item c = false) := by
  refine ⟨?_, ?_, ?_, ?_, ?_⟩
  · intro mappings item c h1 h2 h3 h4 h5 h6
    simp [evalCondition, h1, h2, h3, h4, h5, h6]
  · exact ⟨[("A", JsValue.num 2)], ⟨"A", ">", JsValue.num 3, "numeric"⟩,
      rfl, by with_unfolding_all decide, by with_unfolding_all decide,
      by with_unfolding_all decide⟩
  · exact ⟨[("A", JsValue.str "x")], ⟨"A", "=", JsValue.str "y", "string"⟩,
      rfl, by with_unfolding_all decide, by with_unfolding_all decide,
      by with_unfolding_all decide⟩
  · exact ⟨[("A", JsValue.str "1")], ⟨"A", "in", JsValue.list [JsValue.num 2], "array"⟩,
      rfl, by with_unfolding_all decide, by with_unfolding_all decide,
      by with_unfolding_all decide⟩
  · exact ⟨[("A", JsValue.num 1)], ⟨"A", "=", JsValue.bool false, "boolean"⟩,
      rfl, by with_unfolding_all decide, by with_unfolding_all decide,
      by with_unfolding_all decide⟩

/-- Witness for C9: a condition of unknown type `"mystery"` keeps a record
whose field is present. -/
theorem evalCondition_unknown_type_spec_witness :
    evalCondition [] [("A", JsValue.num 2)] ⟨"A", "=", JsValue.num 1, "mystery"⟩ = true :=
  evalCondition_unknown_type_spec.1 [] [("A", JsValue.num 2)]
    ⟨"A", "=", JsValue.num 1, "mystery"⟩
    (by with_unfolding_all decide) (by with_unfolding_all decide)
    (by with_unfolding_all decide) (by with_unfolding_all decide)
    (by with_unfolding_all decide) (by with_unfolding_all decide)

/-! ### The natural-language condition parser (`parseNaturalLanguage`)

The source runs families of JS regexes over the lowercased query.  The
embedding models each regex over the whitespace-token list of the query,
reproducing the engine's leftmost-match scanning, greedy/optional-group
backtracking order and alternation preference; this is faithful for queries
made of space-separated tokens, the shape the patterns' `\s+` separators are
written for. -/

/-- Whitespace tokens of the lowercased query. -/
def tokenize (s : String) : List String :=
  (splitOnChar ' ' s).filter (fun t => t ≠ "")

/-- A token matching `[a-zA-Z]+`. -/
def isAlphaTok (t : String) : Bool :=
  t ≠ "" ∧ t.toList.all Char.isAlpha

/-- A token matching `\w+`. -/
def isWordTok (t : String) : Bool :=
  t ≠ "" ∧ t.toList.all (fun c => c.isAlphanum ∨ c = '_')

/-- A token matching `\d+(?:\.\d+)?`. -/
def isNumTok (t : String) : Bool :=
  match t.toList.span Char.isDigit with
  | ([], _) => false
  | (_, []) => true
  | (_, '.' :: rest) => rest ≠ [] ∧ rest.all Char.isDigit
  | _ => false

/-- Whether the phrase (a token list) occurs at token position `i`. -/
def tokensMatchAt (ts : List String) (i : ℕ) (phrase : List String) : Bool :=
  phrase.isPrefixOf (ts.drop i)

/-- Next positions for an optional literal group `(?:lit\s+)?` at `i`, in the
engine's backtracking order: consume the literal first, then skip. -/
def optLit (ts : List String) (i : ℕ) (lit : String) : List ℕ :=
  if ts.get? i = some lit then [i + 1, i] else [i]

/-- Next positions for the optional `(?:\w+\s+)?` group at `i`. -/
def optWordTok (ts : List String) (i : ℕ) : List ℕ :=
  match ts.get? i with
  | some t => if isWordTok t then [i + 1, i] else [i]
  | none => [i]

/-- Length of the run of alphabetic tokens at the head of a list. -/
def alphaRunLen : List String → ℕ
  | [] => 0
  | t :: rest => if isAlphaTok t then alphaRunLen rest + 1 else 0

/-- Candidates for the greedy `([a-zA-Z]+(?:\s+[a-zA-Z]+)*)` field group at
position `i`: the captured text and the following position, longest first. -/
def fieldCandidates (ts : List String) (i : ℕ) : List (String × ℕ) :=
  (List.range (alphaRunLen (ts.drop i))).reverse.map (fun k =>
    (String.intercalate " " ((ts.drop i).take (k + 1)), i + (k + 1)))

/-- The comparator alternation of the primary numeric pattern, in the exact
order of the source regex (so `greater than` is preferred over
`greater than or equal`, subject to backtracking). -/
def comparatorAlts : List (List String) :=
  [["greater", "than"], ["more", "than"], ["higher", "than"], ["above"], ["over"],
   ["exceeds"], ["beyond"], ["less", "than"], ["fewer", "than"], ["lower", "than"],
   ["below"], ["under"], ["within"], ["equal", "to"], ["equals"], ["is"], ["matches"],
   ["exactly"], ["same", "as"], ["at", "least"], ["minimum"], ["min"], ["at", "most"],
   ["maximum"], ["max"], ["greater", "than", "or", "equal"], ["less", "than", "or", "equal"]]

/-- The `operatorMappings` table, in source order. -/
def operatorMappings : List (String × String) :=
  [("greater than", ">"), ("more than", ">"), ("higher than", ">"), ("above", ">"),
   ("over", ">"), ("exceeds", ">"), ("beyond", ">"),
   ("less than", "<"), ("fewer than", "<"), ("lower than", "<"), ("below", "<"),
   ("under", "<"), ("within", "<"),
   ("equal to", "="), ("equals", "="), ("is", "="), ("matches", "="), ("exactly", "="),
   ("same as", "="),
   ("greater than or equal", ">="), ("at least", ">="), ("minimum", ">="), ("min", ">="),
   ("less than or equal", "<="), ("at most", "<="), ("maximum", "<="), ("max", "<="),
   ("contains", "contains"), ("includes", "contains"), ("has", "contains"),
   ("with", "contains"), ("featuring", "contains"), ("having", "contains"),
   ("in", "in"), ("among", "in"), ("inside", "in"),
   ("not", "not"), ("excluding", "not"), ("without", "not"), ("except", "not"),
   ("starts with", "startswith"), ("begins with", "startswith"), ("starting", "startswith"),
   ("ends with", "endswith"), ("ending", "endswith"), ("concludes", "endswith")]

/-- A successful match of one of the numeric patterns: the extracted field
phrase, comparator phrase (empty for the fallback patterns), numeric token,
and the token position after the match (the regex's new `lastIndex`). -/
structure NumMatch where
  fieldName : String
  compPhrase : String
  numTok : String
  endIdx : ℕ
deriving Repr, DecidableEq

/-- One attempt of numeric pattern 0
`(?:all\s+)?(?:\w+\s+)?(?:with\s+)?(field)\s+(comparator)\s+(\d+(?:\.\d+)?)`
at token position `i`, exploring choice points in engine order. -/
def tryNumPat0At (ts : List String) (i : ℕ) : Option NumMatch :=
  (optLit ts i "all").findSome? fun j =>
  (optWordTok ts j).findSome? fun k =>
  (optLit ts k "with").findSome? fun l =>
  (fieldCandidates ts l).findSome? fun fc =>
  comparatorAlts.findSome? fun comp =>
    if tokensMatchAt ts fc.2 comp then
      match ts.get? (fc.2 + comp.length) with
      | some t =>
          if isNumTok t then
            some ⟨fc.1, String.intercalate " " comp, t, fc.2 + comp.length + 1⟩
          else none
      | none => none
    else none

/-- One attempt of numeric pattern 1 `(field)\s+(?:of\s+)?(\d+(?:\.\d+)?)`. -/
def tryNumPat1At (ts : List String) (i : ℕ) : Option NumMatch :=
  (fieldCandidates ts i).findSome? fun fc =>
  (optLit ts fc.2 "of").findSome? fun j =>
    match ts.get? j with
    | some t => if isNumTok t then some ⟨fc.1, "", t, j + 1⟩ else none
    | none => none

/-- The earliest keyword occurrence inside a token for an unanchored
alternation followed by `\s+`: the keyword must be a suffix of the token, and
an earlier start position (longer suffix) wins; at equal positions the
alternation order decides. -/
def suffixKeyword (alts : List String) (t : String) : Option String :=
  (List.range (t.toList.length)).findSome? (fun p =>
    alts.findSome? (fun kw =>
      if (t.toList.drop p) = kw.toList then some kw else none))

/-- One attempt of numeric pattern 2
`(?:level|phase|priority|duration)\s+(\d+(?:\.\d+)?)\s+(\w+)`; the handler
takes `match[0].split(" ")[0]`, i.e. the keyword, as the field name. -/
def tryNumPat2At (ts : List String) (i : ℕ) : Option NumMatch :=
  match ts.get? i, ts.get? (i + 1), ts.get? (i + 2) with
  | some t0, some t1, some t2 =>
      (suffixKeyword ["level", "phase", "priority", "duration"] t0).bind fun kw =>
        if isNumTok t1 ∧ isWordTok t2 then some ⟨kw, "", t1, i + 3⟩ else none
  | _, _, _ => none

/-- `regex.exec` from `lastIndex = start`: scan positions left to right. -/
def execFrom (f : ℕ → Option NumMatch) (len start : ℕ) : Option NumMatch :=
  ((List.range (len + 1 - start)).map (start + ·)).findSome? f

/-- The per-collection `universalFieldMappings` alias table. -/
def universalFieldMappings : String → List (String × String)
  | "clients" =>
      [("priority level", "PriorityLevel"), ("prioritylevel", "PriorityLevel"),
       ("priority", "PriorityLevel"), ("importance", "PriorityLevel"),
       ("client name", "ClientName"), ("clientname", "ClientName"), ("name", "ClientName"),
       ("company", "ClientName"), ("organization", "ClientName"),
       ("client id", "ClientID"), ("clientid", "ClientID"), ("id", "ClientID"),
       ("group", "GroupTag"), ("group tag", "GroupTag"), ("grouptag", "GroupTag"),
       ("category", "GroupTag"), ("team", "GroupTag"),
       ("requested tasks", "RequestedTaskIDs"), ("requestedtasks", "RequestedTaskIDs"),
       ("tasks", "RequestedTaskIDs"), ("requirements", "RequestedTaskIDs"),
       ("budget", "AttributesJSON.budget"), ("cost", "AttributesJSON.budget"),
       ("spending", "AttributesJSON.budget"), ("price", "AttributesJSON.budget"),
       ("location", "AttributesJSON.location"), ("city", "AttributesJSON.location"),
       ("region", "AttributesJSON.location"),
       ("vip", "AttributesJSON.vip"), ("premium", "AttributesJSON.vip"),
       ("important", "AttributesJSON.vip"),
       ("sla", "AttributesJSON.sla"), ("service level", "AttributesJSON.sla")]
  | "workers" =>
      [("skills", "Skills"), ("skill", "Skills"), ("expertise", "Skills"),
       ("capabilities", "Skills"), ("competencies", "Skills"), ("technologies", "Skills"),
       ("available slots", "AvailableSlots"), ("availableslots", "AvailableSlots"),
       ("slots", "AvailableSlots"), ("availability", "AvailableSlots"),
       ("phases", "AvailableSlots"),
       ("max load", "MaxLoadPerPhase"), ("maxload", "MaxLoadPerPhase"),
       ("load", "MaxLoadPerPhase"), ("capacity", "MaxLoadPerPhase"),
       ("workload", "MaxLoadPerPhase"),
       ("worker group", "WorkerGroup"), ("workergroup", "WorkerGroup"),
       ("group", "WorkerGroup"), ("team", "WorkerGroup"), ("department", "WorkerGroup"),
       ("qualification", "QualificationLevel"), ("level", "QualificationLevel"),
       ("experience", "QualificationLevel"), ("seniority", "QualificationLevel"),
       ("rank", "QualificationLevel"),
       ("worker name", "WorkerName"), ("workername", "WorkerName"), ("name", "WorkerName"),
       ("employee", "WorkerName"),
       ("worker id", "WorkerID"), ("workerid", "WorkerID"), ("id", "WorkerID"),
       ("employeeid", "WorkerID")]
  | "tasks" =>
      [("duration", "Duration"), ("length", "Duration"), ("time", "Duration"),
       ("period", "Duration"), ("timeframe", "Duration"),
       ("required skills", "RequiredSkills"), ("requiredskills", "RequiredSkills"),
       ("skills", "RequiredSkills"), ("requirements", "RequiredSkills"),
       ("needs", "RequiredSkills"), ("technologies", "RequiredSkills"),
       ("preferred phases", "PreferredPhases"), ("preferredphases", "PreferredPhases"),
       ("phases", "PreferredPhases"), ("timing", "PreferredPhases"),
       ("schedule", "PreferredPhases"), ("when", "PreferredPhases"),
       ("max concurrent", "MaxConcurrent"), ("maxconcurrent", "MaxConcurrent"),
       ("concurrent", "MaxConcurrent"), ("parallel", "MaxConcurrent"),
       ("simultaneous", "MaxConcurrent"),
       ("category", "Category"), ("type", "Category"), ("kind", "Category"),
       ("classification", "Category"),
       ("task name", "TaskName"), ("taskname", "TaskName"), ("name", "TaskName"),
       ("title", "TaskName"), ("description", "TaskName"),
       ("task id", "TaskID"), ("taskid", "TaskID"), ("id", "TaskID"),
       ("priority", "Priority"), ("importance", "Priority"), ("urgency", "Priority"),
       ("criticality", "Priority")]
  | _ => []

/-- The `universalMappings` fallback table used when the per-collection table
has no entry for the field phrase. -/
def universalFallbackMappings (coll : String) : List (String × String) :=
  [("priority", "PriorityLevel"), ("level", "PriorityLevel"), ("importance", "PriorityLevel"),
   ("name", if coll = "clients" then "ClientName"
            else if coll = "workers" then "WorkerName" else "TaskName"),
   ("id", if coll = "clients" then "ClientID"
          else if coll = "workers" then "WorkerID" else "TaskID"),
   ("duration", "Duration"), ("time", "Duration"), ("length", "Duration"),
   ("skills", if coll = "workers" then "Skills" else "RequiredSkills"),
   ("group", if coll = "clients" then "GroupTag" else "WorkerGroup"),
   ("phases", if coll = "workers" then "AvailableSlots" else "PreferredPhases"),
   ("load", "MaxLoadPerPhase"), ("capacity", "MaxLoadPerPhase"),
   ("concurrent", "MaxConcurrent"), ("parallel", "MaxConcurrent"),
   ("category", "Category"), ("type", "Category"),
   ("qualification", "QualificationLevel"), ("experience", "QualificationLevel")]

/-- `fieldName.replace(/\s+/g, "")`. -/
def removeSpaces (s : String) : String :=
  String.mk (s.toList.filter (fun c => ¬ isJsWs c))

/-- `fieldName.split(" ").pop() || ""`. -/
def lastWord (s : String) : String :=
  ((splitOnChar ' ' s).getLast?).getD ""

/-- The numeric-family field resolution chain: the per-collection table on
the phrase, on the phrase without spaces, on the lowercased spaceless phrase,
then the fallback table on the phrase and on its last word. -/
def mapNumericField (coll fieldName : String) : Option String :=
  let t := universalFieldMappings coll
  match t.lookup fieldName with
  | some m => some m
  | none =>
    match t.lookup (removeSpaces fieldName) with
    | some m => some m
    | none =>
      match t.lookup (jsToLower (removeSpaces fieldName)) with
      | some m => some m
      | none =>
        let u := universalFallbackMappings coll
        match u.lookup fieldName with
        | some m => some m
        | none => u.lookup (lastWord fieldName)

/-- The `while ((match = pattern.exec(...)))` loop body shared by the three
numeric patterns: on a match, look the field up; a successful mapping pushes
one condition and `break`s, otherwise scanning resumes at the match end. -/
def numericLoop (coll : String) (ts : List String) (tryAt : ℕ → Option NumMatch)
    (toCond : NumMatch → ParsedCondition) : ℕ → ℕ → List ParsedCondition
  | 0, _ => []
  | fuel + 1, pos =>
      match execFrom tryAt ts.length pos with
      | none => []
      | some m =>
          if (mapNumericField coll m.fieldName).isSome then [toCond m]
          else numericLoop coll ts tryAt toCond fuel m.endIdx

/-- Condition built from a pattern-0 match: the comparator phrase maps
through `operatorMappings` (defaulting to `=`), the captured number through
`parseFloat` (always a number here, so the `isNaN` guard never fires). -/
def numCondOfMatch (coll : String) (op : String) (m : NumMatch) : ParsedCondition :=
  { field := (mapNumericField coll m.fieldName).getD "",
    operator := op,
    value := .num ((decTokToRat m.numTok).getD 0),
    type := "numeric" }

/-- The numeric family: the three patterns run in order, each contributing
the conditions of its own exec loop. -/
def numericConditions (coll : String) (ts : List String) : List ParsedCondition :=
  numericLoop coll ts (tryNumPat0At ts)
    (fun m => numCondOfMatch coll ((operatorMappings.lookup m.compPhrase).getD "=") m)
    (ts.length + 1) 0 ++
  numericLoop coll ts (tryNumPat1At ts) (fun m => numCondOfMatch coll "=" m)
    (ts.length + 1) 0 ++
  numericLoop coll ts (tryNumPat2At ts) (fun m => numCondOfMatch coll "=" m)
    (ts.length + 1) 0

/-- `.trim().replace(/['"]/g, "")` applied to a captured value. -/
def stripQuotes (s : String) : String :=
  String.mk ((jsTrim s).toList.filter (fun c => c ≠ '\'' ∧ c ≠ '"'))

/-- A token matching `[^,\s]+`. -/
def noCommaTok (t : String) : Bool :=
  t ≠ "" ∧ t.toList.all (fun c => c ≠ ',' ∧ ¬ isJsWs c)

/-- Length of the run of comma-free tokens at the head of a list. -/
def valueRunLen : List String → ℕ
  | [] => 0
  | t :: rest => if noCommaTok t then valueRunLen rest + 1 else 0

/-- Candidates for a greedy `([^,\s]+(?:\s+[^,\s]+)*)` group, longest first. -/
def valueCandidates (ts : List String) (i : ℕ) : List (String × ℕ) :=
  (List.range (valueRunLen (ts.drop i))).reverse.map (fun k =>
    (String.intercalate " " ((ts.drop i).take (k + 1)), i + (k + 1)))

/-- The greedy full-run value capture (no constraint follows the group). -/
def valueRunCapture (ts : List String) (i : ℕ) : Option (String × ℕ) :=
  let n := valueRunLen (ts.drop i)
  if n > 0 then some (String.intercalate " " ((ts.drop i).take n), i + n) else none

/-- The shared push step of the string family: the field phrase goes through
a single direct lookup in the per-collection alias table (no fallback chain);
a miss, or an empty value, pushes nothing.  For an `activeDataType` without an
alias table the source would use the phrase itself; all call sites pass one
of the three collections. -/
def stringMappedField (coll fieldName : String) : Option String :=
  if (coll = "clients" ∨ coll = "workers" ∨ coll = "tasks") ∧ fieldName ≠ "" then
    (universalFieldMappings coll).lookup fieldName
  else some fieldName

/-- Build the pushed condition (or nothing) from a string-pattern match. -/
def strCondOf (coll fieldName rawValue : String) : Option ParsedCondition :=
  let value := stripQuotes rawValue
  match stringMappedField coll fieldName with
  | some f =>
      if f ≠ "" ∧ value ≠ "" then
        some { field := f, operator := "contains", value := .str value, type := "string" }
      else none
  | none => none

/-- The generic `while (exec) { maybe push }` loop of the non-numeric
families: scan for the next match from `pos`, emit its condition when the
handler pushed one, resume at the match end. -/
def condLoop (tryAt : ℕ → Option (Option ParsedCondition × ℕ)) (len : ℕ) :
    ℕ → ℕ → List ParsedCondition
  | 0, _ => []
  | fuel + 1, pos =>
      match ((List.range (len + 1 - pos)).map (pos + ·)).findSome? tryAt with
      | none => []
      | some (oc, e) =>
          match oc with
          | some c => c :: condLoop tryAt len fuel e
          | none => condLoop tryAt len fuel e

/-- String pattern 0: `(field)\s+(contains|includes|has|with|featuring|having)\s+(value)`. -/
def strPat0Try (coll : String) (ts : List String) (i : ℕ) :
    Option (Option ParsedCondition × ℕ) :=
  (fieldCandidates ts i).findSome? fun fc =>
    match ts.get? fc.2 with
    | some kw =>
        if ["contains", "includes", "has", "with", "featuring", "having"].contains kw then
          (valueRunCapture ts (fc.2 + 1)).map fun vc =>
            (strCondOf coll fc.1 vc.1, vc.2)
        else none
    | none => none

/-- String pattern 1: `(\w+)\s+(requiring|needing|requesting|demanding)\s+(value)`;
the handler hard-codes the capitalised skill field, which the lowercase-keyed
alias table then misses, so this pattern can never push. -/
def strPat1Try (coll : String) (ts : List String) (i : ℕ) :
    Option (Option ParsedCondition × ℕ) :=
  match ts.get? i, ts.get? (i + 1) with
  | some t0, some t1 =>
      if isWordTok t0 ∧ ["requiring", "needing", "requesting", "demanding"].contains t1 then
        (valueRunCapture ts (i + 2)).map fun vc =>
          (strCondOf coll (if coll = "workers" then "Skills" else "RequiredSkills") vc.1, vc.2)
      else none
  | _, _ => none

/-- String pattern 2: `(value)\s+(skilled|experienced|capable)\s+(\w+)`,
value taken from the first capture; same dead capitalised field. -/
def strPat2Try (coll : String) (ts : List String) (i : ℕ) :
    Option (Option ParsedCondition × ℕ) :=
  (valueCandidates ts i).findSome? fun vc =>
    match ts.get? vc.2, ts.get? (vc.2 + 1) with
    | some kw, some w =>
        if ["skilled", "experienced", "capable"].contains kw ∧ isWordTok w then
          some (strCondOf coll (if coll = "workers" then "Skills" else "RequiredSkills") vc.1,
            vc.2 + 2)
        else none
    | _, _ => none

/-- String pattern 3: `(?:named|called|titled)\s+(value)`; the leading group
is unanchored, so it may end a longer token; same dead capitalised field. -/
def strPat3Try (coll : String) (ts : List String) (i : ℕ) :
    Option (Option ParsedCondition × ℕ) :=
  match ts.get? i with
  | some t0 =>
      (suffixKeyword ["named", "called", "titled"] t0).bind fun _ =>
        (valueRunCapture ts (i + 1)).map fun vc =>
          (strCondOf coll
            (if coll = "clients" then "ClientName"
             else if coll = "workers" then "WorkerName" else "TaskName") vc.1, vc.2)
  | none => none

/-- The `(Group[A-Z]|Team[A-Z]|\w+Group|\w+Team)` capture of string pattern 4
(case-insensitive; the query is lowercased), alternatives in source order;
the `\w+` alternatives capture up to the last literal occurrence. -/
def groupTokenCapture (t : String) : Option String :=
  let cs := t.toList
  let litAt : List Char → Option String := fun lit =>
    if lit.isPrefixOf cs ∧ (cs.get? lit.length).elim false Char.isAlpha then
      some (String.mk (cs.take (lit.length + 1)))
    else none
  let wordThen : List Char → Option String := fun lit =>
    ((List.range cs.length).reverse.findSome? fun j =>
      if 1 ≤ j ∧ listMatchesAt cs lit j ∧
          (cs.take j).all (fun c => c.isAlphanum ∨ c = '_') then
        some (String.mk (cs.take (j + lit.length)))
      else none)
  match litAt "group".toList with
  | some c => some c
  | none =>
    match litAt "team".toList with
    | some c => some c
    | none =>
      match wordThen "group".toList with
      | some c => some c
      | none => wordThen "team".toList

/-- String pattern 4: `(?:in|from|of)\s+(Group[A-Z]|Team[A-Z]|\w+Group|\w+Team)`;
the field is the hard-coded capitalised group field, again missed by the
alias table. -/
def strPat4Try (coll : String) (ts : List String) (i : ℕ) :
    Option (Option ParsedCondition × ℕ) :=
  match ts.get? i, ts.get? (i + 1) with
  | some t0, some t1 =>
      (suffixKeyword ["in", "from", "of"] t0).bind fun _ =>
        (groupTokenCapture t1).map fun cap =>
          (strCondOf coll (if coll = "clients" then "GroupTag" else "WorkerGroup") cap, i + 2)
  | _, _ => none

/-- The string family: five pattern loops, in order, no break on push. -/
def stringConditions (coll : String) (ts : List String) : List ParsedCondition :=
  condLoop (strPat0Try coll ts) ts.length (ts.length + 1) 0 ++
  condLoop (strPat1Try coll ts) ts.length (ts.length + 1) 0 ++
  condLoop (strPat2Try coll ts) ts.length (ts.length + 1) 0 ++
  condLoop (strPat3Try coll ts) ts.length (ts.length + 1) 0 ++
  condLoop (strPat4Try coll ts) ts.length (ts.length + 1) 0

/-- A token of digits and commas only (`[\d,\s]+` pieces). -/
def isDigitCommaTok (t : String) : Bool :=
  t ≠ "" ∧ t.toList.all (fun c => c.isDigit ∨ c = ',')

/-- Length of the token run matching the
`([\d,\s]+(?:\s+(?:and|or)\s+\d+)*)` phase-list capture: digit/comma tokens,
with `and`/`or` allowed when followed by another digit token. -/
def phaseListRunLen : List String → ℕ
  | [] => 0
  | t :: rest =>
      if isDigitCommaTok t then phaseListRunLen rest + 1
      else if t = "and" ∨ t = "or" then
        match rest with
        | r :: _ => if isDigitCommaTok r then phaseListRunLen rest + 1 else 0
        | [] => 0
      else 0

/-- Replace every occurrence of `and`/`or` (as raw substrings, as the
source's `replace(/(?:and|or)/g, ",")` does) by a comma. -/
def replaceAndOrGo : List Char → List Char
  | [] => []
  | 'a' :: 'n' :: 'd' :: rest => ',' :: replaceAndOrGo rest
  | 'o' :: 'r' :: rest => ',' :: replaceAndOrGo rest
  | c :: rest => c :: replaceAndOrGo rest

/-- See `replaceAndOrGo`. -/
def replaceAndOr (s : String) : String :=
  String.mk (replaceAndOrGo s.toList)

/-- `match[1].replace(/(?:and|or)/g, ",").split(",").map(trim)
.filter(v => v && !isNaN(Number(v))).map(Number)`. -/
def parsePhaseList (s : String) : List ℚ :=
  ((splitOnChar ',' (replaceAndOr s)).map jsTrim).filterMap (fun v =>
    if v ≠ "" then strToNumber v else none)

/-- The phase/slot field of the array family for the active collection. -/
def phaseFieldFor (coll : String) : String :=
  if coll = "workers" then "AvailableSlots" else "PreferredPhases"

/-- Array patterns 0 and 1: an optional
`(?:in|during|within|available in)` lead-in (pattern 0) or none (pattern 1),
then `(?:phases?|slots?)`, then the numeric list capture. -/
def arrPatPhaseTry (withLead : Bool) (coll : String) (ts : List String) (i : ℕ) :
    Option (Option ParsedCondition × ℕ) :=
  let listFrom : ℕ → Option (Option ParsedCondition × ℕ) := fun j =>
    match ts.get? j with
    | some pk =>
        (suffixKeyword ["phases", "phase", "slots", "slot"] pk).bind fun _ =>
          let n := phaseListRunLen (ts.drop (j + 1))
          if n > 0 then
            let values := parsePhaseList (String.intercalate " " ((ts.drop (j + 1)).take n))
            some (if values.length > 0 then
                some { field := phaseFieldFor coll, operator := "in",
                       value := .list (values.map JsValue.num), type := "array" }
              else none, j + 1 + n)
          else none
    | none => none
  if withLead then
    match ts.get? i with
    | some t0 =>
        if (suffixKeyword ["in", "during", "within"] t0).isSome then listFrom (i + 1)
        else if jsEndsWith t0 "available" ∧ ts.get? (i + 1) = some "in" then listFrom (i + 2)
        else none
    | none => none
  else listFrom i

/-- A token continuing the `([T]\d+(?:,\s*[T]\d+)*)` task-list capture:
comma-separated `t<digits>` chunks (the query is lowercased). -/
def isTidChunkTok (t : String) : Bool :=
  t ≠ "" ∧ (splitOnChar ',' t).all (fun piece =>
    piece = "" ∨ (jsStartsWith piece "t" ∧ (piece.toList.drop 1) ≠ [] ∧
      (piece.toList.drop 1).all Char.isDigit))

/-- Length of the task-id-list token run: a token joins only after a
trailing comma on the previous token (`,\s*` allows the space). -/
def tidRunLen : List String → ℕ
  | [] => 0
  | t :: rest =>
      if isTidChunkTok t then
        if jsEndsWith t "," then tidRunLen rest + 1 else 1
      else 0

/-- Array pattern 2: `(?:requesting|needing|requiring)\s+(?:tasks?)\s+(ids)`;
ids split on commas, trimmed, empties dropped. -/
def arrPat2Try (ts : List String) (i : ℕ) : Option (Option ParsedCondition × ℕ) :=
  match ts.get? i, ts.get? (i + 1) with
  | some t0, some t1 =>
      (suffixKeyword ["requesting", "needing", "requiring"] t0).bind fun _ =>
        if t1 = "task" ∨ t1 = "tasks" then
          let n := tidRunLen (ts.drop (i + 2))
          if n > 0 then
            let cap := String.intercalate " " ((ts.drop (i + 2)).take n)
            let values := ((splitOnChar ',' cap).map jsTrim).filter (fun v => v ≠ "")
            some (if values.length > 0 then
                some { field := "RequestedTaskIDs", operator := "in",
                       value := .list (values.map JsValue.str), type := "array" }
              else none, i + 2 + n)
          else none
        else none
  | _, _ => none

/-- A token continuing the `([a-zA-Z]+(?:,\s*[a-zA-Z]+)*)` skill-list capture. -/
def isSkillChunkTok (t : String) : Bool :=
  t ≠ "" ∧ (splitOnChar ',' t).all (fun piece =>
    piece = "" ∨ piece.toList.all Char.isAlpha)

/-- Length of the skill-list token run. -/
def skillRunLen : List String → ℕ
  | [] => 0
  | t :: rest =>
      if isSkillChunkTok t then
        if jsEndsWith t "," then skillRunLen rest + 1 else 1
      else 0

/-- Array pattern 3: `(?:with|having)\s+(?:skills?)\s+(list)`. -/
def arrPat3Try (coll : String) (ts : List String) (i : ℕ) :
    Option (Option ParsedCondition × ℕ) :=
  match ts.get? i, ts.get? (i + 1) with
  | some t0, some t1 =>
      (suffixKeyword ["with", "having"] t0).bind fun _ =>
        if t1 = "skill" ∨ t1 = "skills" then
          let n := skillRunLen (ts.drop (i + 2))
          if n > 0 then
            let cap := String.intercalate " " ((ts.drop (i + 2)).take n)
            let values := ((splitOnChar ',' cap).map jsTrim).filter (fun v => v ≠ "")
            some (if values.length > 0 then
                some { field := if coll = "workers" then "Skills" else "RequiredSkills",
                       operator := "in", value := .list (values.map JsValue.str),
                       type := "array" }
              else none, i + 2 + n)
          else none
        else none
  | _, _ => none

/-- The array family: four pattern loops, in order. -/
def arrayConditions (coll : String) (ts : List String) : List ParsedCondition :=
  condLoop (arrPatPhaseTry true coll ts) ts.length (ts.length + 1) 0 ++
  condLoop (arrPatPhaseTry false coll ts) ts.length (ts.length + 1) 0 ++
  condLoop (arrPat2Try ts) ts.length (ts.length + 1) 0 ++
  condLoop (arrPat3Try coll ts) ts.length (ts.length + 1) 0

/-- Field/value assignment shared by the boolean patterns: `vip`/`premium`
map to `AttributesJSON.vip`, `senior` to `QualificationLevel`, anything else
to the adjective itself; `senior`/`junior` carry string values, the rest the
boolean `true`. -/
def booleanCondOf (kw : String) : ParsedCondition :=
  let fieldName :=
    if kw = "vip" ∨ kw = "premium" then "AttributesJSON.vip"
    else if kw = "senior" then "QualificationLevel"
    else kw
  let value : JsValue :=
    if kw = "senior" then .str "Senior"
    else if kw = "junior" then .str "Junior"
    else .bool true
  { field := fieldName, operator := "=", value := value,
    type := if kw = "senior" ∨ kw = "junior" then "string" else "boolean" }

/-- Boolean pattern 0:
`(vip|premium|important|critical|urgent|active|inactive)\s+(\w+)`. -/
def boolPat0Try (ts : List String) (i : ℕ) : Option (Option ParsedCondition × ℕ) :=
  match ts.get? i, ts.get? (i + 1) with
  | some t0, some t1 =>
      (suffixKeyword ["vip", "premium", "important", "critical", "urgent", "active",
        "inactive"] t0).bind fun kw =>
        if isWordTok t1 then some (some (booleanCondOf kw), i + 2) else none
  | _, _ => none

/-- The leading keyword of a token, for an alternation with nothing after it
(`(vip|premium|…)` at the end of the regex): the first alternative that is a
prefix of the token. -/
def headKeyword (alts : List String) (t : String) : Option String :=
  alts.findSome? (fun kw => if kw.toList.isPrefixOf t.toList then some kw else none)

/-- Boolean pattern 1:
`(\w+)\s+(?:that are|who are|which are)\s+(vip|premium|senior|junior|active|inactive)`. -/
def boolPat1Try (ts : List String) (i : ℕ) : Option (Option ParsedCondition × ℕ) :=
  match ts.get? i, ts.get? (i + 1), ts.get? (i + 2), ts.get? (i + 3) with
  | some t0, some t1, some t2, some t3 =>
      if isWordTok t0 ∧ (t1 = "that" ∨ t1 = "who" ∨ t1 = "which") ∧ t2 = "are" then
        (headKeyword ["vip", "premium", "senior", "junior", "active", "inactive"] t3).map
          fun kw => (some (booleanCondOf kw), i + 4)
      else none
  | _, _, _, _ => none

/-- The boolean family: two pattern loops. -/
def booleanConditions (ts : List String) : List ParsedCondition :=
  condLoop (boolPat0Try ts) ts.length (ts.length + 1) 0 ++
  condLoop (boolPat1Try ts) ts.length (ts.length + 1) 0

/-- `parseNaturalLanguage(query)` with the given active collection: the four
pattern families run in order over the lowercased query, each appending its
conditions. -/
def parseNaturalLanguage (query : String) (activeDataType : String) : List ParsedCondition :=
  let ts := tokenize (jsToLower query)
  numericConditions activeDataType ts ++ stringConditions activeDataType ts ++
  arrayConditions activeDataType ts ++ booleanConditions ts

/-- **C3**: parsing `"priority level greater than 3"` against the `clients`
collection yields exactly `[{field: PriorityLevel, operator: >, value: 3,
type: numeric}]` (the primary numeric pattern's optional `(?:\w+\s+)?` group
absorbs `priority`, the captured field phrase `level` maps to `PriorityLevel`
through the universal fallback table), and executing that condition list
against `[{PriorityLevel: 4}, {PriorityLevel: 2}]` keeps only the first
record. -/
theorem parse_execute_round_trip :
    parseNaturalLanguage "priority level greater than 3" "clients" =
      [{ field := "PriorityLevel", operator := ">", value := JsValue.num 3,
         type := "numeric" }] ∧
    executeSearch
      [{ field := "PriorityLevel", operator := ">", value := JsValue.num 3,
         type := "numeric" }]
      [[("PriorityLevel", JsValue.num 4)], [("PriorityLevel", JsValue.num 2)]] [] =
      [[("PriorityLevel", JsValue.num 4)]] := by
  constructor
  · with_unfolding_all decide
  · with_unfolding_all decide

/-- **C10**: each numeric pattern's exec loop `break`s after its first
successfully mapped push, so any single numeric pattern contributes at most
one condition to any query; concretely, a query with two numeric comparisons
matchable only by the primary pattern yields a condition for the first
comparison only. -/
theorem numericLoop_at_most_one :
    (∀ (coll : String) (ts : List String) (tryAt : ℕ → Option NumMatch)
        (toCond : NumMatch → ParsedCondition) (fuel pos : ℕ),
      (numericLoop coll ts tryAt toCond fuel pos).length ≤ 1) ∧
    parseNaturalLanguage "priority greater than 3 and priority less than 5" "clients" =
      [{ field := "PriorityLevel", operator := ">", value := JsValue.num 3,
         type := "numeric" }] := by
  constructor
  · intro coll ts tryAt toCond fuel
    induction fuel with
    | zero => intro pos; simp [numericLoop]
    | succ fuel ih =>
        intro pos
        rw [numericLoop]
        cases h : execFrom tryAt ts.length pos with
        | none => simp
        | some m =>
            by_cases hm : (mapNumericField coll m.fieldName).isSome
            · simp [hm]
            · simpa [hm] using ih m.endIdx
  · with_unfolding_all decide

/-! ### The rule converter (`src/components/ai-rule-converter.tsx`)

`parseNaturalLanguageRule` classifies a sentence into one of six rule types
by weighted regex groups, then extracts type-specific parameters.  The
classification regexes are alternations of literals, possibly two alternation
groups joined by `.*`; they are embedded as data (`RulePat`) with a generic
tester (all tests are case-insensitive, modelled by lowercasing both sides;
inputs are single-line, so `.` is unconstrained). -/

/-- Whether `pat` occurs anywhere in `s` (both as char lists). -/
def containsSubList (s pat : List Char) : Bool :=
  (List.range (s.length + 1)).any (fun i => listMatchesAt s pat i)

/-- Shape of one classification regex. -/
inductive RulePat where
  | alts (xs : List String)
  | seq (as bs : List String)
  | anySeq (ps : List (String × String))
deriving Repr

/-- `regex.test(input)` for a classification pattern. -/
def testRulePat (p : RulePat) (input : String) : Bool :=
  let cs := (jsToLower input).toList
  match p with
  | .alts xs => xs.any (fun x => containsSubList cs x.toList)
  | .seq as bs =>
      (List.range (cs.length + 1)).any (fun i =>
        as.any (fun a =>
          listMatchesAt cs a.toList i ∧
          (List.range (cs.length + 1)).any (fun j =>
            i + a.toList.length ≤ j ∧ bs.any (fun b => listMatchesAt cs b.toList j))))
  | .anySeq ps =>
      ps.any (fun pr =>
        (List.range (cs.length + 1)).any (fun i =>
          listMatchesAt cs pr.1.toList i ∧
          (List.range (cs.length + 1)).any (fun j =>
            i + pr.1.toList.length ≤ j ∧ listMatchesAt cs pr.2.toList j)))

/-- The `rulePatterns` table: six groups of weighted patterns, in source
declaration order. -/
def rulePatterns : List (String × List (RulePat × ℚ)) :=
  [("coRun",
    [(.alts ["together", "same phase", "co-run", "run with", "simultaneously"], 0.9),
     (.seq ["must run", "should run", "need to run"] ["together", "with"], 0.8),
     (.seq ["link", "connect", "pair", "group"] ["tasks"], 0.7)]),
   ("slotRestriction",
    [(.seq ["limit", "restrict", "maximum", "max"] ["slot", "shared"], 0.85),
     (.seq ["no more than", "at most"] ["slot", "shared"], 0.8),
     (.seq ["cap", "ceiling"] ["slot", "allocation"], 0.75)]),
   ("loadLimit",
    [(.seq ["limit", "restrict", "maximum", "max"] ["load", "task", "work"], 0.85),
     (.seq ["no more than", "at most"] ["task", "work", "load"], 0.8),
     (.seq ["capacity", "workload"] ["limit", "restriction"], 0.75)]),
   ("phaseWindow",
    [(.seq ["only run in", "can run in", "restricted to"] ["phase"], 0.8),
     (.seq ["phase", "timing"] ["window", "constraint", "restriction"], 0.75),
     (.seq ["during", "in"] ["phase", "period", "time"], 0.7)]),
   ("patternMatch",
    [(.alts ["starting with", "ending with", "containing", "matching"], 0.75),
     (.alts ["pattern", "regex", "wildcard", "template"], 0.8),
     (.anySeq [("all", "that"), ("tasks", "like"), ("names", "containing")], 0.7)]),
   ("precedenceOverride",
    [(.alts ["override", "precedence", "priority", "hierarchy"], 0.7),
     (.alts ["takes precedence", "overrides", "supersedes"], 0.8),
     (.seq ["global", "specific"] ["rule", "override"], 0.75)])]

/-- The per-group confidence: the maximum weight among matching patterns
(`typeConfidence = Math.max(typeConfidence, weight)` over a `forEach`). -/
def groupConf (pats : List (RulePat × ℚ)) (input : String) (acc : ℚ) : ℚ :=
  pats.foldl (fun acc pw => if testRulePat pw.1 input then max acc pw.2 else acc) acc

/-- One step of the best-match fold of step 1
(`typeConfidence > bestMatch.confidence` replaces; ties keep the earlier
group). -/
def classifyStep (input : String) (best : Option String × ℚ)
    (g : String × List (RulePat × ℚ)) : Option String × ℚ :=
  let typeConf := groupConf g.2 input 0
  if typeConf > best.2 then (some g.1, typeConf) else best

/-- The rule-type classification of step 1. -/
def classifyRule (input : String) : Option String × ℚ :=
  rulePatterns.foldl (classifyStep input) (none, 0)

/-- Whether any classification regex of any group matches. -/
def anyRulePatternMatches (input : String) : Bool :=
  rulePatterns.any (fun g => g.2.any (fun pw => testRulePat pw.1 input))

theorem groupConf_cons (pats : List (RulePat × ℚ)) (pw : RulePat × ℚ)
    (input : String) (acc : ℚ) :
    groupConf (pw :: pats) input acc =
      groupConf pats input (if testRulePat pw.1 input then max acc pw.2 else acc) := by
  simp [groupConf]

theorem groupConf_le (input : String) :
    ∀ (pats : List (RulePat × ℚ)) (acc : ℚ), acc ≤ groupConf pats input acc
  | [], acc => le_of_eq (by simp [groupConf])
  | pw :: rest, acc => by
      rw [groupConf_cons]
      by_cases ht : testRulePat pw.1 input
      · rw [if_pos ht]
        exact le_trans (le_max_left _ _) (groupConf_le input rest _)
      · rw [if_neg ht]
        exact groupConf_le input rest acc

theorem groupConf_zero_iff (input : String) :
    ∀ (pats : List (RulePat × ℚ)), (∀ pw ∈ pats, 0 < pw.2) →
      (groupConf pats input 0 = 0 ↔ ∀ pw ∈ pats, ¬ testRulePat pw.1 input)
  | [] => by intro _; simp [groupConf]
  | pw :: rest => by
      intro hw
      rw [groupConf_cons]
      by_cases ht : testRulePat pw.1 input
      · rw [if_pos ht]
        rw [max_eq_right (hw pw (List.mem_cons_self _ _)).le]
        have hge := groupConf_le input rest pw.2
        have hpos := hw pw (List.mem_cons_self _ _)
        constructor
        · intro h
          rw [h] at hge
          exact absurd hpos (not_lt.mpr hge)
        · intro h
          exact absurd ht (h pw (List.mem_cons_self _ _))
      · rw [if_neg ht]
        rw [groupConf_zero_iff input rest (fun q hq => hw q (List.mem_cons_of_mem _ hq))]
        constructor
        · intro h q hq
          rcases List.mem_cons.mp hq with rfl | hq2
          · exact ht
          · exact h q hq2
        · intro h q hq
          exact h q (List.mem_cons_of_mem _ hq)

theorem groupConf_nonneg (input : String) (pats : List (RulePat × ℚ)) :
    0 ≤ groupConf pats input 0 :=
  groupConf_le input pats 0

/-! #### Rule-converter parameter extraction -/

/-- `dataSet.tasks.map(t => t.TaskID).filter(Boolean)`. -/
def taskIdsOf (ds : DataSet) : List JsValue :=
  (ds.tasks.map (fun t => getProp t "TaskID")).filter jsTruthy

/-- `[...new Set(dataSet.clients.map(c => c.GroupTag).filter(Boolean))]`;
group names are strings (the source lowercases them when matching). -/
def clientGroupsOf (ds : DataSet) : List String :=
  dedupFirst ((ds.clients.map (fun c => getProp c "GroupTag")).filterMap (fun v =>
    match v with
    | .str s => if s ≠ "" then some s else none
    | _ => none))

/-- `[...new Set(dataSet.workers.map(w => w.WorkerGroup).filter(Boolean))]`. -/
def workerGroupsOf (ds : DataSet) : List String :=
  dedupFirst ((ds.workers.map (fun w => getProp w "WorkerGroup")).filterMap (fun v =>
    match v with
    | .str s => if s ≠ "" then some s else none
    | _ => none))

/-- `input.match(/T\d+/g) || []` (case-sensitive, leftmost, non-overlapping). -/
def findTaskIdsGo : ℕ → List Char → List String
  | 0, _ => []
  | _, [] => []
  | fuel + 1, 'T' :: rest =>
      let ds := rest.takeWhile Char.isDigit
      if ds = [] then findTaskIdsGo fuel rest
      else ("T" ++ String.mk ds) :: findTaskIdsGo fuel (rest.dropWhile Char.isDigit)
  | fuel + 1, _ :: rest => findTaskIdsGo fuel rest

/-- See `findTaskIdsGo`. -/
def findTaskIds (s : String) : List String :=
  findTaskIdsGo s.length s.toList

/-- Length of the run of `\w+` tokens at the head of a list. -/
def wordRunLen : List String → ℕ
  | [] => 0
  | t :: rest => if isWordTok t then wordRunLen rest + 1 else 0

/-- All captures of `/(?:task|tasks)\s+([A-Z]\w+(?:\s+\w+)*)/gi` over the
token list, already stripped of the leading `tasks?\s+` as the handler's
`replace` does.  The `[A-Z]\w+` head is a word token of length `≥ 2` starting
with a letter (the embedding assumes whole-token word runs). -/
def taskNameCaptures (ts : List String) : ℕ → ℕ → List String
  | 0, _ => []
  | fuel + 1, pos =>
      match ((List.range (ts.length + 1 - pos)).map (pos + ·)).findSome? (fun i =>
        match ts.get? i, ts.get? (i + 1) with
        | some t0, some t1 =>
            match suffixKeyword ["task", "tasks"] (jsToLower t0) with
            | some _ =>
                if isWordTok t1 ∧ t1.toList.length ≥ 2 ∧
                    (t1.toList.head?.elim false Char.isAlpha) then
                  let n := wordRunLen (ts.drop (i + 1))
                  some (String.intercalate " " ((ts.drop (i + 1)).take n), i + 1 + n)
                else none
            | none => none
        | _, _ => none) with
      | none => []
      | some (cap, e) => cap :: taskNameCaptures ts fuel e

/-- One alternative of a number-extraction regex: a literal, or two literals
joined by a greedy `.*`. -/
inductive AltP where
  | lit (s : String)
  | dotStar (a b : String)
deriving Repr

/-- End positions of an alternative matched at `i`, in backtracking order
(for `dotStar`, the greedy `.*` tries the latest second literal first). -/
def altEnds (cs : List Char) (i : ℕ) : AltP → List ℕ
  | .lit s => if listMatchesAt cs s.toList i then [i + s.toList.length] else []
  | .dotStar a b =>
      if listMatchesAt cs a.toList i then
        (List.range (cs.length + 1)).reverse.filterMap (fun j =>
          if i + a.toList.length ≤ j ∧ listMatchesAt cs b.toList j then
            some (j + b.toList.length)
          else none)
      else []

/-- `/(?:alt1|alt2|…)\s+(\d+)/`: leftmost position, alternatives in order,
then whitespace and the captured digit run (`parseInt` of the capture). -/
def matchPhraseWsNum (alts : List AltP) (cs : List Char) : Option ℕ :=
  (List.range (cs.length + 1)).findSome? fun i =>
    alts.findSome? fun alt =>
      (altEnds cs i alt).findSome? fun e =>
        let r := cs.drop e
        let ws := r.takeWhile isJsWs
        if ws ≠ [] then
          let ds := (r.drop ws.length).takeWhile Char.isDigit
          if ds ≠ [] then some (digitsToNat ds) else none
        else none

/-- `/(\d+)\s+(?:b1|b2|…)/`: a digit run (greedy, with backtracking on its
length), whitespace, then one of the literals as a prefix. -/
def matchNumPhrase (bs : List String) (cs : List Char) : Option ℕ :=
  (List.range (cs.length + 1)).findSome? fun i =>
    let run := (cs.drop i).takeWhile Char.isDigit
    if run = [] then none
    else
      (List.range run.length).reverse.findSome? fun k =>
        let len := k + 1
        let r := cs.drop (i + len)
        let ws := r.takeWhile isJsWs
        if ws ≠ [] ∧ bs.any (fun b => listMatchesAt r b.toList ws.length) then
          some (digitsToNat (run.take len))
        else none

/-- `/(?:a…)\s+(\d+)\s+(?:b…)/`: phrase, whitespace, captured digits,
whitespace, second phrase. -/
def matchPhraseNumPhrase (as bs : List String) (cs : List Char) : Option ℕ :=
  (List.range (cs.length + 1)).findSome? fun i =>
    as.findSome? fun a =>
      if listMatchesAt cs a.toList i then
        let r1 := cs.drop (i + a.toList.length)
        let ws1 := r1.takeWhile isJsWs
        if ws1 ≠ [] then
          let ds := (r1.drop ws1.length).takeWhile Char.isDigit
          if ds ≠ [] then
            let r2 := r1.drop (ws1.length + ds.length)
            let ws2 := r2.takeWhile isJsWs
            if ws2 ≠ [] ∧ bs.any (fun b => listMatchesAt r2 b.toList ws2.length) then
              some (digitsToNat ds)
            else none
          else none
        else none
      else none

/-- `/(\d+)\s+(?:b…).*(?:c…)/`: digits, whitespace, a literal, then another
literal anywhere later. -/
def matchNumPhraseThen (bs cs2 : List String) (cs : List Char) : Option ℕ :=
  (List.range (cs.length + 1)).findSome? fun i =>
    let run := (cs.drop i).takeWhile Char.isDigit
    if run = [] then none
    else
      (List.range run.length).reverse.findSome? fun k =>
        let len := k + 1
        let r := cs.drop (i + len)
        let ws := r.takeWhile isJsWs
        if ws = [] then none
        else
          bs.findSome? fun b =>
            if listMatchesAt r b.toList ws.length then
              if cs2.any (fun c =>
                  containsSubList (r.drop (ws.length + b.toList.length)) c.toList) then
                some (digitsToNat (run.take len))
              else none
            else none

/-- The slot-restriction `limitPatterns`, tried in order on the
case-folded input. -/
def slotLimitNumber (input : String) : Option ℤ :=
  let cs := (jsToLower input).toList
  match matchPhraseWsNum
      [.lit "maximum", .lit "max", .lit "limit", .dotStar "restrict" "to",
       .lit "no more than", .lit "at most"] cs with
  | some n => some (n : ℤ)
  | none => (matchNumPhrase ["slot", "shared", "maximum", "max"] cs).map (fun n => (n : ℤ))

/-- The load-limit `loadPatterns`, tried in order. -/
def loadLimitNumber (input : String) : Option ℤ :=
  let cs := (jsToLower input).toList
  match matchPhraseNumPhrase ["maximum", "max", "limit", "no more than", "at most"]
      ["task", "work", "load"] cs with
  | some n => some (n : ℤ)
  | none =>
    match matchNumPhraseThen ["task", "work", "load"] ["maximum", "max", "limit"] cs with
    | some n => some (n : ℤ)
    | none => (matchPhraseWsNum [.lit "exceed", .lit "more than"] cs).map (fun n => (n : ℤ))

/-- `workerGroups.find(g => lowercaseInput.includes(g.toLowerCase()))`. -/
def workerGroupMatch (input : String) (ds : DataSet) : Option String :=
  (workerGroupsOf ds).find? (fun g => containsSub (jsToLower input) (jsToLower g))

/-- `clientGroups.find(…) || workerGroups.find(…)` of the slot-restriction
case. -/
def slotGroupMatch (input : String) (ds : DataSet) : Option String :=
  match (clientGroupsOf ds).find? (fun g => containsSub (jsToLower input) (jsToLower g)) with
  | some g => some g
  | none => workerGroupMatch input ds

/-- The `[\d,\s]+(?:\s+(?:and|or)\s+\d+)*` capture characters (approximate:
trailing connector words are kept; no claim evaluates this capture). -/
def phaseListChars : ℕ → List Char → List Char
  | 0, _ => []
  | _, [] => []
  | fuel + 1, 'a' :: 'n' :: 'd' :: rest => 'a' :: 'n' :: 'd' :: phaseListChars fuel rest
  | fuel + 1, 'o' :: 'r' :: rest => 'o' :: 'r' :: phaseListChars fuel rest
  | fuel + 1, c :: rest =>
      if c.isDigit ∨ c = ',' ∨ isJsWs c then c :: phaseListChars fuel rest else []

/-- All matches of the global `/(\d+(?:\s*[-,]\s*\d+)*)/g` pattern
(approximate: maximal runs of digits, separators and whitespace that start
with a digit; no claim evaluates this capture). -/
def digitGroupRuns : ℕ → List Char → List String
  | 0, _ => []
  | _, [] => []
  | fuel + 1, c :: rest =>
      if c.isDigit then
        let run := (c :: rest).takeWhile (fun x => x.isDigit ∨ x = '-' ∨ x = ',' ∨ isJsWs x)
        String.mk run :: digitGroupRuns fuel ((c :: rest).drop run.length)
      else digitGroupRuns fuel rest

/-- The phase-window `phasePatterns`: the first two capture a numeric list
after a `phase(s)` keyword; the third, a global pattern, yields its second
full match when there are at least two (`phaseMatches[1] || phaseMatches[0]`). -/
def phaseInfoMatch (input : String) : Option String :=
  let cs := (jsToLower input).toList
  let afterKw : List String → Option (List Char) := fun kws =>
    (List.range (cs.length + 1)).findSome? fun i =>
      kws.findSome? fun kw =>
        if listMatchesAt cs kw.toList i then
          let r := cs.drop (i + kw.toList.length)
          let ws := r.takeWhile isJsWs
          if ws ≠ [] then some (r.drop ws.length) else none
        else none
  let p1 : Option String :=
    match afterKw ["phase", "phases"] with
    | some r =>
        let cap := phaseListChars r.length r
        if cap ≠ [] then some (String.mk cap) else none
    | none => none
  match p1 with
  | some c => some c
  | none =>
    let p2 : Option String :=
      (List.range (cs.length + 1)).findSome? fun i =>
        (["in", "during"].findSome? fun kw =>
          if listMatchesAt cs kw.toList i then
            let r := cs.drop (i + kw.toList.length)
            let ws := r.takeWhile isJsWs
            if ws = [] then none
            else
              (["phase", "phases"].findSome? fun pk =>
                if listMatchesAt r pk.toList ws.length then
                  let r2 := r.drop (ws.length + pk.toList.length)
                  let ws2 := r2.takeWhile isJsWs
                  if ws2 ≠ [] then
                    let cap := (r2.drop ws2.length).takeWhile
                      (fun x => x.isDigit ∨ x = ',' ∨ x = '-' ∨ isJsWs x)
                    if cap ≠ [] then some (String.mk cap) else none
                  else none
                else none)
          else none)
    match p2 with
    | some c => some c
    | none =>
      match digitGroupRuns cs.length cs with
      | [] => none
      | [m] => some m
      | _ :: m2 :: _ => some m2

/-- `/(?:alts)\s+['"]([^'"]+)['"]/` (case-sensitive, as in the source's
`patternMatches` table). -/
def matchQuotedAfter (alts : List String) (input : String) : Option String :=
  let cs := input.toList
  (List.range (cs.length + 1)).findSome? fun i =>
    alts.findSome? fun a =>
      if listMatchesAt cs a.toList i then
        let r := cs.drop (i + a.toList.length)
        let ws := r.takeWhile isJsWs
        if ws ≠ [] then
          match r.drop ws.length with
          | q :: rest =>
              if q = '\'' ∨ q = '"' then
                let body := rest.takeWhile (fun c => c ≠ '\'' ∧ c ≠ '"')
                if body ≠ [] ∧ rest.drop body.length ≠ [] then some (String.mk body)
                else none
              else none
          | [] => none
        else none
      else none

/-- The outcome of one type's parameter-extraction `case`: parameters in
assignment order, suggestions, warnings, and the total confidence adjustment. -/
structure ExtractResult where
  params : List (String × JsValue)
  suggestions : List String
  warnings : List String
  delta : ℚ
deriving Repr

/-- The `coRun` extraction case: Task-ID tokens validated against the task
collection; `≥ 2` valid IDs give `parameters.tasks` and `+0.1`; otherwise
`≥ 2` matching task names give `parameters.taskNames`, a suggestion and
`+0.05`; otherwise a warning and `−0.2`. -/
def extractCoRun (input : String) (ds : DataSet) : ExtractResult :=
  let taskMatches := findTaskIds input
  let validTasks := taskMatches.filter (fun t => (taskIdsOf ds).contains (.str t))
  let validTaskNames :=
    (taskNameCaptures (tokenize input) (tokenize input).length 0).filter (fun nm =>
      ds.tasks.any (fun task =>
        match getProp task "TaskName" with
        | .str s => containsSub (jsToLower s) (jsToLower nm)
        | _ => false))
  if validTasks.length ≥ 2 then
    ⟨[("tasks", .list (validTasks.map JsValue.str))], [], [], 0.1⟩
  else if validTaskNames.length ≥ 2 then
    ⟨[("taskNames", .list (validTaskNames.map JsValue.str))],
     ["Consider using specific Task IDs (e.g., T001, T002) for more precise matching"],
     [], 0.05⟩
  else
    ⟨[], [], ["Need at least 2 valid task identifiers for co-run rule"], -0.2⟩

/-- The `slotRestriction` extraction case: a missing group adds only a
suggestion (no warning, no penalty); a found group adds `+0.1`; a missing
slot number adds a warning and `−0.1`; a found number adds `+0.1`. -/
def extractSlotRestriction (input : String) (ds : DataSet) : ExtractResult :=
  let groupMatch := slotGroupMatch input ds
  let limitMatch := slotLimitNumber input
  let groupPart : List (String × JsValue) × List String × ℚ :=
    match groupMatch with
    | some g =>
        ([("groupType", .str (if (clientGroupsOf ds).contains g then "client" else "worker")),
          ("groupName", .str g)], [], 0.1)
    | none =>
        ([], ["Available groups: " ++
          String.intercalate ", " (clientGroupsOf ds ++ workerGroupsOf ds)], 0)
  let numPart : List (String × JsValue) × List String × ℚ :=
    match limitMatch with
    | some n => ([("minCommonSlots", .num (n : ℚ))], [], 0.1)
    | none => ([], ["Could not extract slot limit number"], -0.1)
  ⟨groupPart.1 ++ numPart.1, groupPart.2.1, numPart.2.1, groupPart.2.2 + numPart.2.2⟩

/-- The `loadLimit` extraction case: a missing worker group adds a warning
and a suggestion but no penalty; a found group adds `+0.1`; a missing load
number adds a warning and no penalty; a found number adds `+0.1`. -/
def extractLoadLimit (input : String) (ds : DataSet) : ExtractResult :=
  let groupMatch := workerGroupMatch input ds
  let loadMatch := loadLimitNumber input
  let groupPart : List (String × JsValue) × List String × List String × ℚ :=
    match groupMatch with
    | some g => ([("workerGroup", .str g)], [], [], 0.1)
    | none =>
        ([], ["Available worker groups: " ++ String.intercalate ", " (workerGroupsOf ds)],
         ["Could not identify worker group"], 0)
  let numPart : List (String × JsValue) × List String × ℚ :=
    match loadMatch with
    | some n => ([("maxSlotsPerPhase", .num (n : ℚ))], [], 0.1)
    | none => ([], ["Could not extract load limit number"], 0)
  ⟨groupPart.1 ++ numPart.1, groupPart.2.1, groupPart.2.2.1 ++ numPart.2.1,
   groupPart.2.2.2 + numPart.2.2⟩

/-- The `phaseWindow` extraction case. -/
def extractPhaseWindow (input : String) (ds : DataSet) : ExtractResult :=
  let taskMatch := (findTaskIds input).head?
  let phaseMatches := phaseInfoMatch input
  let taskPart : List (String × JsValue) × List String × List String × ℚ :=
    match taskMatch with
    | some t =>
        if (taskIdsOf ds).contains (.str t) then ([("taskId", .str t)], [], [], 0.1)
        else
          ([], ["Available tasks: " ++ jsArrayJoin ((taskIdsOf ds).take 5) ", "],
           ["Could not identify valid task ID"], 0)
    | none =>
        ([], ["Available tasks: " ++ jsArrayJoin ((taskIdsOf ds).take 5) ", "],
         ["Could not identify valid task ID"], 0)
  let phasePart : List (String × JsValue) × List String × ℚ :=
    match phaseMatches with
    | some p => ([("allowedPhases", .str p)], [], 0.1)
    | none => ([], ["Could not extract phase information"], 0)
  ⟨taskPart.1 ++ phasePart.1, taskPart.2.1, taskPart.2.2.1 ++ phasePart.2.1,
   taskPart.2.2.2 + phasePart.2.2⟩

/-- The `patternMatch` extraction case: the four quoted-fragment patterns in
order with break, then the four action patterns in order with break,
defaulting to `include`. -/
def extractPatternMatch (input : String) : ExtractResult :=
  let quoted : Option (List (String × JsValue) × ℚ) :=
    match matchQuotedAfter ["starting with", "begins with"] input with
    | some m => some ([("pattern", .str ("^" ++ m ++ ".*")), ("field", .str "TaskID")], 0.1)
    | none =>
      match matchQuotedAfter ["ending with", "ends with"] input with
      | some m => some ([("pattern", .str (".*" ++ m ++ "$")), ("field", .str "TaskID")], 0.1)
      | none =>
        match matchQuotedAfter ["containing", "includes"] input with
        | some m =>
            some ([("pattern", .str (".*" ++ m ++ ".*")), ("field", .str "TaskName")], 0.1)
        | none =>
          match matchQuotedAfter ["matching", "like"] input with
          | some m => some ([("pattern", .str m), ("field", .str "TaskName")], 0.1)
          | none => none
  let lower := (jsToLower input)
  let action : Option (String × ℚ) :=
    if ["prioritize", "priority", "urgent", "important"].any (containsSub lower) then
      some ("prioritize", 0.05)
    else if ["exclude", "remove", "skip", "ignore"].any (containsSub lower) then
      some ("exclude", 0.05)
    else if ["include", "add", "consider"].any (containsSub lower) then
      some ("include", 0.05)
    else if ["flag", "mark", "highlight"].any (containsSub lower) then
      some ("flag", 0.05)
    else none
  let qp := quoted.elim ([], (0 : ℚ)) id
  let ap : List (String × JsValue) × ℚ :=
    match action with
    | some a => ([("action", .str a.1)], a.2)
    | none => ([("action", .str "include")], 0)
  ⟨qp.1 ++ ap.1, [], [], qp.2 + ap.2⟩

/-- The `precedenceOverride` extraction case: the five scope patterns in
order with break, defaulting to `specific`. -/
def extractPrecedenceOverride (input : String) : ExtractResult :=
  let lower := jsToLower input
  let scope : Option String :=
    if ["global", "all", "every", "universal"].any (containsSub lower) then some "global"
    else if ["specific", "particular", "individual", "certain"].any (containsSub lower) then
      some "specific"
    else if ["high priority", "critical", "urgent"].any (containsSub lower) then
      some "priority"
    else if ["client", "customer"].any (containsSub lower) then some "client"
    else if ["worker", "resource", "staff"].any (containsSub lower) then some "worker"
    else none
  match scope with
  | some s => ⟨[("overrideType", .str s)], [], [], 0.05⟩
  | none => ⟨[("overrideType", .str "specific")], [], [], 0⟩

/-- `parseArrayField` as redefined locally inside the rule converter: arrays
pass through, truthy values are comma-split and trimmed (the source calls
`.split`, so the cell is a string), falsy values give `[]`. -/
def parseArrayFieldRC : JsValue → List JsValue
  | .list xs => xs
  | .str s => if s ≠ "" then (splitOnChar ',' s).map (fun x => .str (jsTrim x)) else []
  | v => if jsTruthy v then [] else []

/-- Step 3's `coRun` cross-check: with `≥ 2` valid tasks, intersect their
`PreferredPhases` (a `reduce` seeded by the first task's phases); an empty
intersection warns, a non-empty one suggests the common phases. -/
def coRunContext (params : List (String × JsValue)) (ds : DataSet) :
    List String × List String :=
  match params.lookup "tasks" with
  | some (.list tasks) =>
      if tasks.length ≥ 2 then
        let taskPhases := tasks.map (fun tid =>
          match ds.tasks.find? (fun t => getProp t "TaskID" = tid) with
          | some task => parseArrayFieldRC (getProp task "PreferredPhases")
          | none => [])
        let commonPhases :=
          match taskPhases with
          | [] => []
          | first :: rest =>
              rest.foldl (fun common phases =>
                common.filter (fun p => phases.contains p)) first
        if commonPhases.length = 0 then
          (["Consider adjusting task phase preferences for co-run feasibility"],
           ["Selected tasks have no overlapping preferred phases"])
        else
          (["Tasks can co-run in phases: " ++ jsArrayJoin commonPhases ", "], [])
      else ([], [])
  | _ => ([], [])

/-- `${x.charAt(0).toUpperCase() + x.slice(1)}`. -/
def capitalizeFirst (s : String) : String :=
  match s.toList with
  | [] => ""
  | c :: rest => String.mk (c.toUpper :: rest)

/-- `parameters.k || dflt` rendered into a template literal. -/
def paramOr (params : List (String × JsValue)) (k dflt : String) : String :=
  let v := (params.lookup k).getD .undefined
  if jsTruthy v then jsToString v else dflt

/-- `generateEnhancedRuleName`. -/
def generateEnhancedRuleName (ty : String) (params : List (String × JsValue)) : String :=
  if ty = "coRun" then
    match params.lookup "tasks" with
    | some (.list tasks) =>
        if tasks.length > 0 then
          "Co-run " ++ jsArrayJoin (tasks.take 3) " & " ++
            (if tasks.length > 3 then "..." else "")
        else "Co-run Tasks"
    | _ => "Co-run Tasks"
  else if ty = "slotRestriction" then
    paramOr params "groupName" "Group" ++ " Slot Limit (" ++
      paramOr params "minCommonSlots" "X" ++ ")"
  else if ty = "loadLimit" then
    paramOr params "workerGroup" "Workers" ++ " Load Limit (" ++
      paramOr params "maxSlotsPerPhase" "X" ++ ")"
  else if ty = "phaseWindow" then
    paramOr params "taskId" "Task" ++ " Phase Window (" ++
      paramOr params "allowedPhases" "X" ++ ")"
  else if ty = "patternMatch" then
    capitalizeFirst (paramOr params "action" "match") ++ " Pattern: " ++
      paramOr params "pattern" "Pattern"
  else if ty = "precedenceOverride" then
    capitalizeFirst (paramOr params "overrideType" "specific") ++ " Override Rule"
  else "Custom Rule"

/-- Interface `ParsedRule` of the rule converter; `suggestions`/`warnings`
are `undefined` (`none`) when empty, as the source's final ternaries set. -/
structure ParsedRule where
  type : String
  name : String
  description : String
  parameters : List (String × JsValue)
  confidence : ℚ
  suggestions : Option (List String)
  warnings : Option (List String)
  aiEnhanced : Bool
deriving Repr

/-- The local heuristic `parseNaturalLanguageRule`: classify (null when no
pattern group matches), extract per type, run the `coRun` context check,
synthesize the name, clamp confidence to `[0,1]`.  The progress updates and
pacing `setTimeout`s of the source are UI-only. -/
def parseNaturalLanguageRule (input : String) (ds : DataSet) : Option ParsedRule :=
  match classifyRule input with
  | (none, _) => none
  | (some ruleType, conf) =>
      let ex : ExtractResult :=
        if ruleType = "coRun" then extractCoRun input ds
        else if ruleType = "slotRestriction" then extractSlotRestriction input ds
        else if ruleType = "loadLimit" then extractLoadLimit input ds
        else if ruleType = "phaseWindow" then extractPhaseWindow input ds
        else if ruleType = "patternMatch" then extractPatternMatch input
        else extractPrecedenceOverride input
      let ctx : List String × List String :=
        if ruleType = "coRun" then coRunContext ex.params ds else ([], [])
      let suggestions := ex.suggestions ++ ctx.1
      let warnings := ex.warnings ++ ctx.2
      some
        { type := ruleType,
          name := generateEnhancedRuleName ruleType ex.params,
          description := jsTrim input,
          parameters := ex.params,
          confidence := max 0 (min 1 (conf + ex.delta)),
          suggestions := if suggestions.length > 0 then some suggestions else none,
          warnings := if warnings.length > 0 then some warnings else none,
          aiEnhanced := false }

theorem foldl_classifyStep_some (input : String) :
    ∀ (groups : List (String × List (RulePat × ℚ))) (ty : String) (q : ℚ),
      ((groups.foldl (classifyStep input) (some ty, q)).1).isSome = true
  | [], _, _ => rfl
  | g :: rest, ty, q => by
      rw [List.foldl_cons]
      by_cases h : groupConf g.2 input 0 > q
      · rw [show classifyStep input (some ty, q) g = (some g.1, groupConf g.2 input 0) from by
          simp [classifyStep, h]]
        exact foldl_classifyStep_some input rest g.1 _
      · rw [show classifyStep input (some ty, q) g = (some ty, q) from by
          simp [classifyStep, h]]
        exact foldl_classifyStep_some input rest ty q

theorem foldl_classifyStep_none_iff (input : String) :
    ∀ (groups : List (String × List (RulePat × ℚ))),
      (∀ g ∈ groups, ∀ pw ∈ g.2, 0 < pw.2) →
      (((groups.foldl (classifyStep input) (none, 0)).1 = none) ↔
        ∀ g ∈ groups, ∀ pw ∈ g.2, ¬ testRulePat pw.1 input)
  | [] => by intro _; simp
  | g :: rest => by
      intro hw
      rw [List.foldl_cons]
      by_cases h : groupConf g.2 input 0 > 0
      · rw [show classifyStep input (none, 0) g = (some g.1, groupConf g.2 input 0) from by
          simp [classifyStep, h]]
        constructor
        · intro hnone
          have hs := foldl_classifyStep_some input rest g.1 (groupConf g.2 input 0)
          rw [hnone] at hs
          cases hs
        · intro hall
          exfalso
          have hzero := (groupConf_zero_iff input g.2
            (hw g (List.mem_cons_self _ _))).mpr (hall g (List.mem_cons_self _ _))
          rw [hzero] at h
          exact lt_irrefl 0 h
      · have hzero : groupConf g.2 input 0 = 0 :=
          le_antisymm (not_lt.mp h) (groupConf_nonneg input g.2)
        rw [show classifyStep input (none, 0) g = (none, 0) from by simp [classifyStep, h]]
        rw [foldl_classifyStep_none_iff input rest
          (fun g2 hg2 => hw g2 (List.mem_cons_of_mem _ hg2))]
        constructor
        · intro hrest g2 hg2
          rcases List.mem_cons.mp hg2 with rfl | hg2r
          · exact (groupConf_zero_iff input g2.2 (hw g2 (List.mem_cons_self _ _))).mp hzero
          · exact hrest g2 hg2r
        · intro hall g2 hg2
          exact hall g2 (List.mem_cons_of_mem _ hg2)

set_option maxHeartbeats 2000000 in
/-- **C6**: the Rule Converter's local parser returns `null` exactly when no
regex of any of the six rule-type pattern groups matches the sentence (never
a zero- or low-confidence rule), and returns a non-null `ParsedRule` whenever
at least one pattern matches. -/
theorem parseNaturalLanguageRule_none_iff (input : String) (ds : DataSet) :
    (parseNaturalLanguageRule input ds).isSome = anyRulePatternMatches input := by
  have hw : ∀ g ∈ rulePatterns, ∀ pw ∈ g.2, 0 < pw.2 := by
    intro g hg pw hpw
    fin_cases hg <;> fin_cases hpw <;> norm_num
  have hcls := foldl_classifyStep_none_iff input rulePatterns hw
  have hdef : rulePatterns.foldl (classifyStep input) (none, 0) = classifyRule input := rfl
  rw [hdef] at hcls
  rcases hpe : classifyRule input with ⟨o, q⟩
  rw [hpe] at hcls
  cases o with
  | none =>
      have hall := hcls.mp rfl
      have hany : anyRulePatternMatches input = false := by
        by_cases hne : anyRulePatternMatches input = true
        · rcases List.any_eq_true.mp hne with ⟨g, hg, hinner⟩
          rcases List.any_eq_true.mp hinner with ⟨pw, hpw, ht⟩
          exact absurd ht (hall g hg pw hpw)
        · simpa using hne
      rw [hany]
      unfold parseNaturalLanguageRule
      rw [hpe]
      rfl
  | some ty =>
      have hany : anyRulePatternMatches input = true := by
        by_cases hne : anyRulePatternMatches input = true
        · exact hne
        · exfalso
          have hf : anyRulePatternMatches input = false := by simpa using hne
          have hall : ∀ g ∈ rulePatterns, ∀ pw ∈ g.2, ¬ testRulePat pw.1 input := by
            intro g hg pw hpw ht
            have htrue : anyRulePatternMatches input = true :=
              List.any_eq_true.mpr ⟨g, hg, List.any_eq_true.mpr ⟨pw, hpw, ht⟩⟩
            rw [htrue] at hf
            cases hf
          have hcontra := hcls.mpr hall
          cases hcontra
      rw [hany]
      unfold parseNaturalLanguageRule
      rw [hpe]
      rfl

/-- Counterexample to **C8** as stated.  For the loadLimit sentence
`"limit workload for Backend"` (worker group `Backend`, no load number) the
result carries the missing-number warning but its confidence is
`0.85 + 0.1 = 0.95`: no penalty was applied, although the claim asserts a
penalty for a missing load-limit number.  For the slotRestriction sentence
`"restrict to maximum 3 shared slots"` (no group mentioned) the result has
no warning at all and confidence `0.85 + 0.1 = 0.95`: a missing group match
draws only a suggestion, although the claim asserts a penalty. -/
theorem extraction_penalty_counterexample :
    (parseNaturalLanguageRule "limit workload for Backend"
        ⟨[], [[("WorkerGroup", JsValue.str "Backend")]], []⟩).map
      (fun r => (r.type, r.warnings, r.confidence)) =
      some ("loadLimit", some ["Could not extract load limit number"], 0.95) ∧
    (parseNaturalLanguageRule "restrict to maximum 3 shared slots"
        ⟨[[("GroupTag", JsValue.str "Enterprise")]], [], []⟩).map
      (fun r => (r.type, r.warnings, r.suggestions, r.confidence)) =
      some ("slotRestriction", none, some ["Available groups: Enterprise"], 0.95) := by
  constructor
  · with_unfolding_all decide
  · with_unfolding_all decide

/-- **C8** (amended): in the Rule Converter's extraction, `loadLimit` never
adjusts confidence downward — a missing load-limit number yields a warning
with no penalty, and a missing worker-group match yields a warning plus a
suggestion with no penalty — while `slotRestriction` penalises only the
missing slot-number case (warning and `−0.1`); its missing group match
yields a suggestion listing the available groups and neither warning nor
penalty. -/
theorem extraction_penalty_spec :
    (∀ (input : String) (ds : DataSet),
      (extractLoadLimit input ds).delta =
        (if (workerGroupMatch input ds).isSome then 0.1 else 0) +
        (if (loadLimitNumber input).isSome then 0.1 else 0) ∧
      (loadLimitNumber input = none →
        "Could not extract load limit number" ∈ (extractLoadLimit input ds).warnings) ∧
      (workerGroupMatch input ds = none →
        "Could not identify worker group" ∈ (extractLoadLimit input ds).warnings ∧
        "Available worker groups: " ++ String.intercalate ", " (workerGroupsOf ds) ∈
          (extractLoadLimit input ds).suggestions)) ∧
    (∀ (input : String) (ds : DataSet),
      (extractSlotRestriction input ds).delta =
        (if (slotGroupMatch input ds).isSome then 0.1 else 0) +
        (if (slotLimitNumber input).isSome then 0.1 else (-0.1)) ∧
      (slotLimitNumber input = none →
        "Could not extract slot limit number" ∈ (extractSlotRestriction input ds).warnings) ∧
      (slotGroupMatch input ds = none →
        (extractSlotRestriction input ds).warnings =
          (if (slotLimitNumber input).isSome then []
           else ["Could not extract slot limit number"]) ∧
        "Available groups: " ++
            String.intercalate ", " (clientGroupsOf ds ++ workerGroupsOf ds) ∈
          (extractSlotRestriction input ds).suggestions)) := by
  constructor
  · intro input ds
    unfold extractLoadLimit
    cases hg : workerGroupMatch input ds <;> cases hn : loadLimitNumber input <;>
      simp [hg, hn]
  · intro input ds
    unfold extractSlotRestriction
    cases hg : slotGroupMatch input ds <;> cases hn : slotLimitNumber input <;>
      simp [hg, hn]

/-- Witness for C8 (amended): the warning clauses applied at concrete
sentences with the respective pieces missing. -/
theorem extraction_penalty_spec_witness :
    "Could not extract load limit number" ∈
      (extractLoadLimit "limit workload for Backend"
        ⟨[], [[("WorkerGroup", JsValue.str "Backend")]], []⟩).warnings ∧
    ("Could not identify worker group" ∈
        (extractLoadLimit "limit workload" ⟨[], [], []⟩).warnings ∧
      "Available worker groups: " ++ String.intercalate ", " (workerGroupsOf ⟨[], [], []⟩) ∈
        (extractLoadLimit "limit workload" ⟨[], [], []⟩).suggestions) ∧
    "Could not extract slot limit number" ∈
      (extractSlotRestriction "restrict shared slots" ⟨[], [], []⟩).warnings :=
  ⟨(extraction_penalty_spec.1 "limit workload for Backend"
      ⟨[], [[("WorkerGroup", JsValue.str "Backend")]], []⟩).2.1 (by with_unfolding_all decide),
   (extraction_penalty_spec.1 "limit workload" ⟨[], [], []⟩).2.2 (by with_unfolding_all decide),
   (extraction_penalty_spec.2 "restrict shared slots" ⟨[], [], []⟩).2.1
     (by with_unfolding_all decide)⟩

end Digitalyz
